import Mathlib

/-! vkdispatch native core: command lists and compute plans

A shallow embedding of `command_list.cpp` and `stage_compute.cpp`.

Conventions of the embedding
* `size_t` arithmetic is arithmetic on `Nat` reduced modulo `2 ^ 64` where the
  source performs it on values (`SIZE_MOD`).
* Pointers into the caller's instance buffer are addresses in `Nat`; pointer
  arithmetic is plain addition (overflowing a pointer is undefined in C++).
* Heap blocks returned by `malloc` are named by their allocation number, so a
  block keeps its identity even if the allocator would reuse an address.
* What the external collaborators are asked to do (stream `begin`/`submit`,
  stage record callbacks, pipeline barriers) is logged as a list of `Event`s.
-/

namespace VkDispatch

/-! ## Constants -/

/-- Modulus of `size_t` on the 64-bit targets of the library. -/
def SIZE_MOD : Nat := 2 ^ 64

/-- Value of `VK_PIPELINE_STAGE_COMPUTE_SHADER_BIT` in the Vulkan headers. -/
def VK_PIPELINE_STAGE_COMPUTE_SHADER_BIT : Nat := 0x00000800

/-- Value of `vk::AccessFlagBits::eMemoryRead` in the Vulkan headers. -/
def VK_ACCESS_MEMORY_READ_BIT : Nat := 0x00008000

/-- Value of `vk::AccessFlagBits::eMemoryWrite` in the Vulkan headers. -/
def VK_ACCESS_MEMORY_WRITE_BIT : Nat := 0x00010000

/-! ## Data model -/

/-- Context: the per-device handle array `devices` is indexed below
`deviceCount`. The per-device stream array is not stored: an event names a
stream by the index used to select it. The source checks no index against
`deviceCount`, and neither does the embedding. -/
structure Context where
  deviceCount : Nat
  devices : Nat → Nat
deriving Inhabited

/-- Descriptor pool size entry (`VkDescriptorPoolSize`). -/
structure VkDescriptorPoolSize where
  type : Nat
  descriptorCount : Nat
deriving DecidableEq, Repr, Inhabited

/-- ComputePlan: scalar fields and the five per-device vectors. -/
structure ComputePlan where
  ctx : Context
  pc_size : Nat
  binding_count : Nat
  poolSizes : List (List VkDescriptorPoolSize)
  modules : List Nat
  descriptorSetLayouts : List Nat
  pipelineLayouts : List Nat
  pipelines : List Nat
deriving Inhabited

/-- DescriptorSet: per-device descriptor-set handles. -/
structure DescriptorSet where
  sets : List Nat
deriving DecidableEq, Repr, Inhabited

/-- Contents of the heap block a compute stage owns (`struct ComputeRecordInfo`);
a null `descriptor_set` pointer is `none`. -/
structure ComputeRecordInfo where
  plan : ComputePlan
  descriptor_set : Option DescriptorSet
  blocks_x : Nat
  blocks_y : Nat
  blocks_z : Nat
  pc_size : Nat
deriving Inhabited

/-- The record function pointer stored in a stage: either the lambda defined
in `stage_compute_record_extern` or some other function, named by its address. -/
inductive RecordFn where
  | compute_lambda
  | other (addr : Nat)
deriving DecidableEq, Repr, Inhabited

/-- Stage: record callback, owned user-data pointer (a heap block number),
per-instance data size and pipeline-stage flag. -/
structure Stage where
  record : RecordFn
  user_data : Nat
  instance_data_size : Nat
  stage : Nat
deriving DecidableEq, Repr, Inhabited

/-- CommandList: back-reference to the context and the stage vector. -/
structure CommandList where
  ctx : Context
  stages : List Stage
deriving Inhabited

/-- Heap as far as the command list is concerned: block `k` is the `k`-th block
ever returned by `malloc` and holds `blocks[k]`; `freed` logs every `free` call
in order, by block number. -/
structure Heap where
  blocks : List ComputeRecordInfo
  freed : List Nat
deriving Inhabited

/-- Result of `malloc` followed by the stores into the new block: the new block
number and the heap holding it. -/
def Heap.malloc (h : Heap) (contents : ComputeRecordInfo) : Nat × Heap :=
  (h.blocks.length, { h with blocks := h.blocks ++ [contents] })

/-- One call of `free(p)`. -/
def Heap.free (h : Heap) (p : Nat) : Heap :=
  { h with freed := h.freed ++ [p] }

/-- The fields of `vk::MemoryBarrier` that the source sets. -/
structure MemoryBarrier where
  srcAccessMask : Nat
  dstAccessMask : Nat
deriving DecidableEq, Repr, Inhabited

/-- What `command_list_submit_extern` asks of its collaborators, in order.
`begin s` and `submit s` are the calls on `ctx->streams[s]`; `record` is the
call `stages[i].record(cmd_buffer, &stages[i], instance_data, device)`;
`pipelineBarrier` is the barrier recorded on the same command buffer, with its
memory barriers listed and the buffer and image barrier counts. -/
inductive Event where
  | begin (stream : Int)
  | record (i : Nat) (stage : Stage) (instance_data : Nat) (device : Int)
  | pipelineBarrier (srcStageMask dstStageMask dependencyFlags : Nat)
      (memoryBarriers : List MemoryBarrier)
      (bufferMemoryBarrierCount imageMemoryBarrierCount : Nat)
  | submit (stream : Int)
deriving DecidableEq, Repr, Inhabited

/-! ## command_list.cpp -/

/-- Embedding of `command_list_create_extern`. -/
def command_list_create_extern (context : Context) : CommandList :=
  { ctx := context, stages := [] }

/-- Embedding of `command_list_destroy_extern`: one `free` per stage, in index
order; the command list itself is deleted, so only the heap remains. -/
def command_list_destroy_extern (command_list : CommandList) (heap : Heap) : Heap :=
  command_list.stages.foldl (fun h s => h.free s.user_data) heap

/-- Embedding of `command_list_get_instance_size_extern`: the `size_t`
accumulator starts at 0 and adds every stage's size, wrapping at `2 ^ 64`. -/
def command_list_get_instance_size_extern (command_list : CommandList) : Nat :=
  command_list.stages.foldl (fun acc s => (acc + s.instance_data_size) % SIZE_MOD) 0

/-- Embedding of `command_list_reset_extern`: one `free` per stage, then
`stages.clear()`. -/
def command_list_reset_extern (command_list : CommandList) (heap : Heap) :
    CommandList × Heap :=
  ({ command_list with stages := [] },
   command_list.stages.foldl (fun h s => h.free s.user_data) heap)

/-- The barrier value built once at the top of `command_list_submit_extern`. -/
def memory_barrier : MemoryBarrier :=
  { srcAccessMask := VK_ACCESS_MEMORY_WRITE_BIT, dstAccessMask := VK_ACCESS_MEMORY_READ_BIT }

/-- The unsigned expression `stages.size() - 1`: it wraps to `SIZE_MOD - 1`
when the vector is empty. -/
def sizeMinusOne (size : Nat) : Nat :=
  if size = 0 then SIZE_MOD - 1 else size - 1

/-- Loop state of `command_list_submit_extern`: the running data pointer and the
events so far. -/
structure SubmitState where
  current_instance_data : Nat
  trace : List Event
deriving DecidableEq, Repr, Inhabited

/-- Body of the inner loop of `command_list_submit_extern` for stage index `i`:
call the record callback, add the barrier when `i < stages.size() - 1`, advance
the data pointer. -/
def submitStage (stages : List Stage) (device : Int) (st : SubmitState) (i : Nat) :
    SubmitState :=
  match stages[i]? with
  | none => st
  | some s =>
    let called := st.trace ++ [Event.record i s st.current_instance_data device]
    let barriered :=
      if i < sizeMinusOne stages.length then
        called ++ [Event.pipelineBarrier s.stage
          (match stages[i + 1]? with
           | some next => next.stage
           | none => 0)
          0 [memory_barrier] 0 0]
      else called
    { current_instance_data := st.current_instance_data + s.instance_data_size,
      trace := barriered }

/-- Body of the outer loop: record every stage index `0 .. stages.size() - 1`
for one instance. -/
def submitInstance (stages : List Stage) (device : Int) (st : SubmitState)
    (_instance : Nat) : SubmitState :=
  (List.range stages.length).foldl (submitStage stages device) st

/-- Embedding of `command_list_submit_extern`. `devices[0]` is read first (an
empty device array has no first entry: `none`); `device_count` and
`submission_thread_counts` are accepted and not read. The result is the final
loop state: where the data pointer ended and the full event log. -/
def command_list_submit_extern (command_list : CommandList) (instance_buffer : Nat)
    (instance_count : Nat) (devices : List Int) (_device_count : Int)
    (_submission_thread_counts : List Int) : Option SubmitState :=
  match devices with
  | [] => none
  | device :: _ =>
    let started : SubmitState :=
      { current_instance_data := instance_buffer, trace := [Event.begin device] }
    let recorded :=
      (List.range instance_count).foldl (submitInstance command_list.stages device) started
    some { recorded with trace := recorded.trace ++ [Event.submit device] }

/-! ## stage_compute.cpp -/

/-- Value of `VK_DESCRIPTOR_TYPE_STORAGE_BUFFER` in the Vulkan headers. -/
def VK_DESCRIPTOR_TYPE_STORAGE_BUFFER : Nat := 7

/-- Value of `VK_SHADER_STAGE_COMPUTE_BIT` in the Vulkan headers. -/
def VK_SHADER_STAGE_COMPUTE_BIT : Nat := 0x00000020

/-- The library's own descriptor-kind enumeration. Its declaration is in
`internal.h`; the source names one enumerator, `DESCRIPTOR_TYPE_STORAGE_BUFFER`,
and every other value of the enumeration is `OTHER code`. -/
inductive DescriptorType where
  | DESCRIPTOR_TYPE_STORAGE_BUFFER
  | OTHER (code : Nat)
deriving DecidableEq, Repr, Inhabited

/-- ComputePlanCreateInfo: the fields `stage_compute_plan_create_extern` reads.
`descriptorTypes` is the array the pointer field addresses. -/
structure ComputePlanCreateInfo where
  shader_source : String
  pc_size : Nat
  binding_count : Nat
  descriptorTypes : List DescriptorType
deriving Inhabited

/-- The glslang entry points `glsl_to_spirv_util` relies on: the three steps
that can fail and the generated SPIR-V words. -/
structure Glslang where
  shader_preprocess : String → Bool
  shader_parse : String → Bool
  program_link : String → Bool
  program_SPIRV_get : String → List Nat

/-- Embedding of `glsl_to_spirv_util`: preprocess, parse and link in this order,
each returning `NULL` (`none`) on failure; otherwise the SPIR-V words. -/
def glsl_to_spirv_util (g : Glslang) (shader_source : String) : Option (List Nat) :=
  if !g.shader_preprocess shader_source then none
  else if !g.shader_parse shader_source then none
  else if !g.program_link shader_source then none
  else some (g.program_SPIRV_get shader_source)

/-- Descriptor-set layout binding (`VkDescriptorSetLayoutBinding`). -/
structure VkDescriptorSetLayoutBinding where
  binding : Nat
  descriptorType : Nat
  descriptorCount : Nat
  stageFlags : Nat
deriving DecidableEq, Repr, Inhabited

/-- Push-constant range (`VkPushConstantRange`). -/
structure VkPushConstantRange where
  stageFlags : Nat
  offset : Nat
  size : Nat
deriving DecidableEq, Repr, Inhabited

/-- The Vulkan object-creation entry points used by plan construction; each
answers with the new handle, or `none` for a result other than `VK_SUCCESS`.
Arguments: device handle, then the fields of the create-info the source sets. -/
structure Vulkan where
  vkCreateShaderModule : Nat → List Nat → Option Nat
  vkCreateDescriptorSetLayout : Nat → List VkDescriptorSetLayoutBinding → Option Nat
  vkCreatePipelineLayout : Nat → List Nat → List VkPushConstantRange → Option Nat
  vkCreateComputePipelines : Nat → Nat → Nat → Nat → String → Option Nat

/-- Ways `stage_compute_plan_create_extern` ends without a plan: it returns
`NULL`, a `VK_CALL` check stops the process, or it reads `descriptorTypes`
past the end of the array. -/
inductive PlanFailure where
  | returned_null
  | aborted
  | out_of_bounds
deriving DecidableEq, Repr, Inhabited

/-- Modelled from the spec: the `VK_CALL` macro, defined in `internal.h`, which
is not among the sources. The spec calls it "a check-and-abort macro" that
aborts "the process-level call chain" on a device-API error. -/
def VK_CALL (result : Option Nat) : Except PlanFailure Nat :=
  match result with
  | some handle => pure handle
  | none => throw PlanFailure.aborted

/-- Body of the binding loop for device `i`, binding index `j`. -/
def planBinding (create_info : ComputePlanCreateInfo) (i : Nat)
    (st : List VkDescriptorSetLayoutBinding × ComputePlan) (j : Nat) :
    Except PlanFailure (List VkDescriptorSetLayoutBinding × ComputePlan) :=
  match create_info.descriptorTypes[j]? with
  | none => throw PlanFailure.out_of_bounds
  | some kind =>
    if kind ≠ DescriptorType.DESCRIPTOR_TYPE_STORAGE_BUFFER then
      throw PlanFailure.returned_null
    else
      let binding : VkDescriptorSetLayoutBinding :=
        { binding := j, descriptorType := VK_DESCRIPTOR_TYPE_STORAGE_BUFFER,
          descriptorCount := 1, stageFlags := VK_SHADER_STAGE_COMPUTE_BIT }
      let poolSize : VkDescriptorPoolSize :=
        { type := VK_DESCRIPTOR_TYPE_STORAGE_BUFFER, descriptorCount := 1 }
      pure (st.1 ++ [binding],
        { st.2 with poolSizes := st.2.poolSizes.set i (st.2.poolSizes.getD i [] ++ [poolSize]) })

/-- Body of the device loop of `stage_compute_plan_create_extern` for device
index `i`. -/
def planDevice (g : Glslang) (vk : Vulkan) (ctx : Context)
    (create_info : ComputePlanCreateInfo) (plan : ComputePlan) (i : Nat) :
    Except PlanFailure ComputePlan :=
  match glsl_to_spirv_util g create_info.shader_source with
  | none => throw PlanFailure.returned_null
  | some code => do
    let module ← VK_CALL (vk.vkCreateShaderModule (ctx.devices i) code)
    let plan1 := { plan with modules := plan.modules.set i module }
    let (bindings, plan2) ←
      (List.range create_info.binding_count).foldlM (planBinding create_info i) ([], plan1)
    let setLayout ← VK_CALL (vk.vkCreateDescriptorSetLayout (ctx.devices i) bindings)
    let plan3 := { plan2 with descriptorSetLayouts := plan2.descriptorSetLayouts.set i setLayout }
    let pushConstantRange : VkPushConstantRange :=
      { stageFlags := VK_SHADER_STAGE_COMPUTE_BIT, offset := 0, size := create_info.pc_size }
    let ranges := if create_info.pc_size > 0 then [pushConstantRange] else []
    let layout ← VK_CALL (vk.vkCreatePipelineLayout (ctx.devices i) [setLayout] ranges)
    let plan4 := { plan3 with pipelineLayouts := plan3.pipelineLayouts.set i layout }
    let pipeline ← VK_CALL (vk.vkCreateComputePipelines (ctx.devices i) layout
      VK_SHADER_STAGE_COMPUTE_BIT module "main")
    pure { plan4 with pipelines := plan4.pipelines.set i pipeline }

/-- Embedding of `stage_compute_plan_create_extern`: `Except.ok plan` is the
returned plan pointer, `Except.error PlanFailure.returned_null` is `return NULL`. -/
def stage_compute_plan_create_extern (g : Glslang) (vk : Vulkan) (ctx : Context)
    (create_info : ComputePlanCreateInfo) : Except PlanFailure ComputePlan :=
  let plan : ComputePlan :=
    { ctx := ctx,
      pc_size := create_info.pc_size,
      binding_count := create_info.binding_count,
      poolSizes := List.replicate ctx.deviceCount [],
      modules := List.replicate ctx.deviceCount 0,
      descriptorSetLayouts := List.replicate ctx.deviceCount 0,
      pipelineLayouts := List.replicate ctx.deviceCount 0,
      pipelines := List.replicate ctx.deviceCount 0 }
  (List.range ctx.deviceCount).foldlM (planDevice g vk ctx create_info) plan

/-- Embedding of `stage_compute_record_extern`: allocate and fill the record
info, then `push_back` the new stage. -/
def stage_compute_record_extern (command_list : CommandList) (heap : Heap)
    (plan : ComputePlan) (descriptor_set : Option DescriptorSet)
    (blocks_x blocks_y blocks_z : Nat) : CommandList × Heap :=
  let my_compute_info : ComputeRecordInfo :=
    { plan := plan, descriptor_set := descriptor_set,
      blocks_x := blocks_x, blocks_y := blocks_y, blocks_z := blocks_z,
      pc_size := plan.pc_size }
  let allocated := heap.malloc my_compute_info
  ({ command_list with
      stages := command_list.stages ++
        [{ record := RecordFn.compute_lambda,
           user_data := allocated.1,
           instance_data_size := plan.pc_size,
           stage := VK_PIPELINE_STAGE_COMPUTE_SHADER_BIT }] },
   allocated.2)

/-! ## Specification-side notions -/

/-- The mathematical sum of the stages' instance data sizes. -/
def instanceSum (stages : List Stage) : Nat :=
  (stages.map Stage.instance_data_size).sum

/-- The heap before anything was allocated. -/
def Heap.empty : Heap := { blocks := [], freed := [] }

/-- One mutation of a command list between its creation and its destruction. -/
inductive Op where
  | record (plan : ComputePlan) (descriptor_set : Option DescriptorSet)
      (blocks_x blocks_y blocks_z : Nat)
  | reset

/-- Apply one mutation to the command list and the heap. -/
def runOp (st : CommandList × Heap) : Op → CommandList × Heap
  | Op.record plan ds x y z => stage_compute_record_extern st.1 st.2 plan ds x y z
  | Op.reset => command_list_reset_extern st.1 st.2

/-- Number of `record` operations in a sequence. -/
def recordCount (ops : List Op) : Nat :=
  (ops.filter (fun o => match o with
    | Op.record _ _ _ _ _ => true
    | Op.reset => false)).length

/-- The ownership invariant: the blocks already freed together with the blocks
owned by the current stages are exactly the blocks allocated so far, each once. -/
def Owned (st : CommandList × Heap) : Prop :=
  (st.2.freed ++ st.1.stages.map Stage.user_data).Perm (List.range st.2.blocks.length)

/-- Events of one instance in closed form: the stages `suffix`, the first of
which has index `i` and data pointer `p`, each followed by a barrier to its
successor when it has one. -/
def stageEvents (device : Int) : List Stage → Nat → Nat → List Event
  | [], _, _ => []
  | [s], i, p => [Event.record i s p device]
  | s :: t :: rest, i, p =>
    Event.record i s p device
      :: Event.pipelineBarrier s.stage t.stage 0 [memory_barrier] 0 0
      :: stageEvents device (t :: rest) (i + 1) (p + s.instance_data_size)

/-- Events of `m` instances in closed form, the first instance starting at
data pointer `p`. -/
def bodyEvents (stages : List Stage) (device : Int) : Nat → Nat → List Event
  | 0, _ => []
  | m + 1, p => stageEvents device stages 0 p
      ++ bodyEvents stages device m (p + instanceSum stages)

/-- Whether an event is a call of a stage's record callback. -/
def Event.isRecord : Event → Bool
  | Event.record _ _ _ _ => true
  | _ => false

/-- The record calls of one instance in closed form, for the stages `suffix`
whose first element has index `i` and data pointer `p`. -/
def recordCalls (device : Int) : List Stage → Nat → Nat → List Event
  | [], _, _ => []
  | s :: rest, i, p =>
    Event.record i s p device :: recordCalls device rest (i + 1) (p + s.instance_data_size)

/-- The record calls of `m` instances in closed form. -/
def bodyCalls (stages : List Stage) (device : Int) : Nat → Nat → List Event
  | 0, _ => []
  | m + 1, p => recordCalls device stages 0 p
      ++ bodyCalls stages device m (p + instanceSum stages)

/-- Stage lists used as concrete inputs: sizes 4, 0 and 8. -/
def exampleStages : List Stage :=
  [ { record := RecordFn.compute_lambda, user_data := 0, instance_data_size := 4,
      stage := VK_PIPELINE_STAGE_COMPUTE_SHADER_BIT },
    { record := RecordFn.compute_lambda, user_data := 1, instance_data_size := 0,
      stage := VK_PIPELINE_STAGE_COMPUTE_SHADER_BIT },
    { record := RecordFn.compute_lambda, user_data := 2, instance_data_size := 8,
      stage := VK_PIPELINE_STAGE_COMPUTE_SHADER_BIT } ]

/-- A context with one device. -/
def exampleContext : Context := { deviceCount := 1, devices := fun _ => 0 }

/-- The command list holding `exampleStages`. -/
def exampleList : CommandList := { ctx := exampleContext, stages := exampleStages }

/-- Whether an event is a pipeline barrier. -/
def Event.isBarrier : Event → Bool
  | Event.pipelineBarrier _ _ _ _ _ _ => true
  | _ => false

/-- An event with its data pointers, masks and device indices erased. -/
inductive Shape where
  | begin
  | stage (i : Nat) (s : Stage)
  | barrier
  | submit
deriving DecidableEq, Repr

/-- The shape of an event. -/
def Event.shape : Event → Shape
  | Event.begin _ => Shape.begin
  | Event.record i s _ _ => Shape.stage i s
  | Event.pipelineBarrier _ _ _ _ _ _ => Shape.barrier
  | Event.submit _ => Shape.submit

/-- One instance as the claim words it: record `S_0`, barrier, record `S_1`,
barrier, ..., record `S_(n-1)`. -/
def instanceShape (stages : List Stage) : List Shape :=
  List.intersperse Shape.barrier (stages.enum.map (fun p => Shape.stage p.1 p.2))

/-- What it means for a barrier `e` to be the one inserted after the record
call `prev`: `prev` is the call of some stage `i` that has a successor, and the
barrier goes from stage `i`'s flag to stage `i + 1`'s flag with the single
write-to-read memory barrier and nothing else. Events that are no barriers
satisfy it trivially. -/
def BarrierFollows (stages : List Stage) (device : Int) (prev e : Event) : Prop :=
  ∀ src dst flags mbs bufs imgs, e = Event.pipelineBarrier src dst flags mbs bufs imgs →
    ∃ i s t p, prev = Event.record i s p device ∧
      stages[i]? = some s ∧ stages[i + 1]? = some t ∧
      src = s.stage ∧ dst = t.stage ∧
      mbs = [{ srcAccessMask := VK_ACCESS_MEMORY_WRITE_BIT,
               dstAccessMask := VK_ACCESS_MEMORY_READ_BIT }] ∧
      bufs = 0 ∧ imgs = 0

/-- Stage list with two different pipeline-stage flags. -/
def mixedStages : List Stage :=
  [ { record := RecordFn.compute_lambda, user_data := 0, instance_data_size := 4,
      stage := VK_PIPELINE_STAGE_COMPUTE_SHADER_BIT },
    { record := RecordFn.other 7, user_data := 1, instance_data_size := 2,
      stage := 0x00001000 } ]

/-- A context with four devices. -/
def wideContext : Context := { deviceCount := 4, devices := fun i => 100 + i }

/-- The command list holding `mixedStages`, on the four-device context. -/
def mixedList : CommandList := { ctx := wideContext, stages := mixedStages }

/-- A plan with a 4-byte push-constant block, used as a concrete input. -/
def examplePlan : ComputePlan :=
  { ctx := exampleContext, pc_size := 4, binding_count := 1,
    poolSizes := [[{ type := VK_DESCRIPTOR_TYPE_STORAGE_BUFFER, descriptorCount := 1 }]],
    modules := [11], descriptorSetLayouts := [12], pipelineLayouts := [13],
    pipelines := [14] }

/-- A run used as a concrete input: record, record, reset, record. -/
def exampleOps : List Op :=
  [Op.record examplePlan none 1 1 1, Op.record examplePlan none 2 1 1, Op.reset,
   Op.record examplePlan none 3 1 1]

/-- The stream or device index an event names, if it names one. -/
def Event.deviceIndex? : Event → Option Int
  | Event.begin stream => some stream
  | Event.record _ _ _ device => some device
  | Event.pipelineBarrier _ _ _ _ _ _ => none
  | Event.submit stream => some stream

/-- A context without devices. -/
def emptyContext : Context := { deviceCount := 0, devices := fun _ => 0 }

/-- A compiler for which every step succeeds. -/
def exampleGlslang : Glslang :=
  { shader_preprocess := fun _ => true, shader_parse := fun _ => true,
    program_link := fun _ => true, program_SPIRV_get := fun _ => [119734787] }

/-- A driver for which every creation succeeds. -/
def exampleVulkan : Vulkan :=
  { vkCreateShaderModule := fun _ _ => some 1,
    vkCreateDescriptorSetLayout := fun _ _ => some 2,
    vkCreatePipelineLayout := fun _ _ _ => some 3,
    vkCreateComputePipelines := fun _ _ _ _ _ => some 4 }

/-- A create-info whose only binding is not a storage buffer. -/
def badCreateInfo : ComputePlanCreateInfo :=
  { shader_source := "compute shader source", pc_size := 4, binding_count := 1,
    descriptorTypes := [DescriptorType.OTHER 2] }

/-- Whether an event is a call on a stream (`begin` or `submit`). -/
def Event.isStreamCall : Event → Bool
  | Event.begin _ => true
  | Event.submit _ => true
  | _ => false

/-- The slice of the instance buffer a record call is handed: the address it
starts at and the number of bytes the stage declares. -/
def Event.slice? : Event → Option (Nat × Nat)
  | Event.record _ s p _ => some (p, s.instance_data_size)
  | _ => none

/-- The slices handed to the record callbacks, in call order. -/
def slices (trace : List Event) : List (Nat × Nat) :=
  trace.filterMap Event.slice?

/-! ## stage_compute.cpp: the record callback -/

/-- Value of `VK_PIPELINE_BIND_POINT_COMPUTE` in the Vulkan headers. -/
def VK_PIPELINE_BIND_POINT_COMPUTE : Nat := 1

/-- Commands recorded into a command buffer, named after the entry points that
record them. `vkCmdBindDescriptorSets` lists the `descriptorSetCount` handles
read from `pDescriptorSets`; `vkCmdPushConstants` keeps the pointer `pValues`
it was given and the `size` bytes found there, which the call copies. -/
inductive VkCmd where
  | vkCmdBindPipeline (pipelineBindPoint pipeline : Nat)
  | vkCmdBindDescriptorSets (pipelineBindPoint layout firstSet descriptorSetCount : Nat)
      (descriptorSets : List Nat) (dynamicOffsetCount : Nat)
  | vkCmdPushConstants (layout stageFlags offset size pValues : Nat) (values : List Nat)
  | vkCmdDispatch (groupCountX groupCountY groupCountZ : Nat)
  | vkCmdPipelineBarrier (srcStageMask dstStageMask dependencyFlags : Nat)
      (memoryBarriers : List MemoryBarrier)
      (bufferMemoryBarrierCount imageMemoryBarrierCount : Nat)
deriving DecidableEq, Repr, Inhabited

/-- The `count` bytes of memory that start at address `pointer`; `memory` gives
the byte stored at each address. -/
def readBytes (memory : Nat → Nat) (pointer count : Nat) : List Nat :=
  (List.range count).map (fun j => memory (pointer + j))

/-- Element `index` of a per-device vector, `index` being an `int`; there is
none when the index is negative or past the end. -/
def vectorAt {α : Type} (vector : List α) (index : Int) : Option α :=
  if index < 0 then none else vector[index.toNat]?

/-- Embedding of the lambda that `stage_compute_record_extern` stores as the
stage's record callback. It reads the record info from the stage's user-data
block, binds the pipeline of `device`, binds the descriptor set of `device` at
set 0 when a descriptor set was given, pushes `pc_size` bytes read at
`instance_data` when `pc_size > 0`, and dispatches. The result is `none` when
the user-data block or an indexed vector element does not exist. -/
def compute_lambda (heap : Heap) (memory : Nat → Nat) (stage : Stage)
    (instance_data : Nat) (device : Int) : Option (List VkCmd) := do
  let my_compute_info ← heap.blocks[stage.user_data]?
  let pipeline ← vectorAt my_compute_info.plan.pipelines device
  let bindSets ← match my_compute_info.descriptor_set with
    | none => pure []
    | some descriptor_set => do
      let layout ← vectorAt my_compute_info.plan.pipelineLayouts device
      let set ← vectorAt descriptor_set.sets device
      pure [VkCmd.vkCmdBindDescriptorSets VK_PIPELINE_BIND_POINT_COMPUTE layout 0 1 [set] 0]
  let pushConstants ←
    if my_compute_info.pc_size > 0 then do
      let layout ← vectorAt my_compute_info.plan.pipelineLayouts device
      pure [VkCmd.vkCmdPushConstants layout VK_SHADER_STAGE_COMPUTE_BIT 0
        my_compute_info.pc_size instance_data
        (readBytes memory instance_data my_compute_info.pc_size)]
    else pure []
  pure ([VkCmd.vkCmdBindPipeline VK_PIPELINE_BIND_POINT_COMPUTE pipeline]
    ++ bindSets ++ pushConstants
    ++ [VkCmd.vkCmdDispatch my_compute_info.blocks_x my_compute_info.blocks_y
          my_compute_info.blocks_z])

/-- The call `stage.record(cmd_buffer, &stage, instance_data, device)`: the
commands it appends to the command buffer. A function pointer other than the
compute lambda is code outside these sources; `others` says what it records. -/
def callRecord (others : Nat → Stage → Nat → Int → Option (List VkCmd)) (heap : Heap)
    (memory : Nat → Nat) (stage : Stage) (instance_data : Nat) (device : Int) :
    Option (List VkCmd) :=
  match stage.record with
  | RecordFn.compute_lambda => compute_lambda heap memory stage instance_data device
  | RecordFn.other addr => others addr stage instance_data device

/-- The commands one event of `command_list_submit_extern` puts into the
command buffer: the stream calls put none, a record call what the callback
records, a barrier itself. -/
def eventCommands (others : Nat → Stage → Nat → Int → Option (List VkCmd)) (heap : Heap)
    (memory : Nat → Nat) : Event → Option (List VkCmd)
  | Event.begin _ => some []
  | Event.record _ stage instance_data device =>
    callRecord others heap memory stage instance_data device
  | Event.pipelineBarrier src dst flags memoryBarriers bufs imgs =>
    some [VkCmd.vkCmdPipelineBarrier src dst flags memoryBarriers bufs imgs]
  | Event.submit _ => some []

/-- The contents of the command buffer after the events of a submit call. -/
def recordedCommands (others : Nat → Stage → Nat → Int → Option (List VkCmd)) (heap : Heap)
    (memory : Nat → Nat) : List Event → Option (List VkCmd)
  | [] => some []
  | e :: rest => do
    let first ← eventCommands others heap memory e
    let later ← recordedCommands others heap memory rest
    pure (first ++ later)

/-- What the claim says a compute stage records for one instance, in order:
bind the pipeline, bind the descriptor set at set 0 if there is one, push
`pc_size` bytes at offset 0 if `pc_size > 0`, dispatch `(x, y, z)`. -/
def computeCommands (pipeline layout : Nat) (set : Option Nat) (pc_size pValues : Nat)
    (values : List Nat) (x y z : Nat) : List VkCmd :=
  [VkCmd.vkCmdBindPipeline VK_PIPELINE_BIND_POINT_COMPUTE pipeline]
    ++ (match set with
        | some handle =>
          [VkCmd.vkCmdBindDescriptorSets VK_PIPELINE_BIND_POINT_COMPUTE layout 0 1 [handle] 0]
        | none => [])
    ++ (if pc_size > 0 then
          [VkCmd.vkCmdPushConstants layout VK_SHADER_STAGE_COMPUTE_BIT 0 pc_size pValues values]
        else [])
    ++ [VkCmd.vkCmdDispatch x y z]

/-- Whether a command is a dispatch. -/
def VkCmd.isDispatch : VkCmd → Bool
  | VkCmd.vkCmdDispatch _ _ _ => true
  | _ => false

/-- Memory holding the bytes `buffer` from address `base` on, and 0 elsewhere. -/
def memoryOf (base : Nat) (buffer : List Nat) : Nat → Nat :=
  fun address => if base ≤ address then buffer.getD (address - base) 0 else 0

/-- The number a byte sequence stands for, least significant byte first. -/
def littleEndian : List Nat → Nat
  | [] => 0
  | b :: rest => b + 256 * littleEndian rest

/-- Callbacks from outside the sources that record nothing; no example uses one. -/
def noOthers : Nat → Stage → Nat → Int → Option (List VkCmd) :=
  fun _ _ _ _ => some []

/-- A descriptor set with one per-device handle. -/
def exampleDescriptorSet : DescriptorSet := { sets := [21] }

/-- The binds a compute stage records before its push constants: the pipeline,
then the descriptor set at set 0 if there is one. -/
def setupCommands (pipeline layout : Nat) (set : Option Nat) : List VkCmd :=
  [VkCmd.vkCmdBindPipeline VK_PIPELINE_BIND_POINT_COMPUTE pipeline]
    ++ (match set with
        | some handle =>
          [VkCmd.vkCmdBindDescriptorSets VK_PIPELINE_BIND_POINT_COMPUTE layout 0 1 [handle] 0]
        | none => [])

/-- What a command list holding one compute stage puts into the command buffer
for `m` instances, as the claim words it: for each `k < m`, the binds, then the
upload of the `p` bytes `buffer[k * p .. (k + 1) * p)` found at
`instance_buffer + k * p`, then the dispatch. -/
def singleStageCommands (pipeline layout : Nat) (set : Option Nat) (p instance_buffer : Nat)
    (buffer : List Nat) (x y z m : Nat) : List VkCmd :=
  ((List.range m).map (fun k =>
    setupCommands pipeline layout set ++
      [VkCmd.vkCmdPushConstants layout VK_SHADER_STAGE_COMPUTE_BIT 0 p (instance_buffer + k * p)
         ((buffer.drop (k * p)).take p),
       VkCmd.vkCmdDispatch x y z])).flatten

/-! ## Lemmas: instance size and heap -/

theorem instanceSum_nil : instanceSum [] = 0 := rfl

theorem instanceSum_cons (s : Stage) (rest : List Stage) :
    instanceSum (s :: rest) = s.instance_data_size + instanceSum rest := by
  simp [instanceSum]

theorem instanceSum_append (xs ys : List Stage) :
    instanceSum (xs ++ ys) = instanceSum xs + instanceSum ys := by
  simp [instanceSum]

theorem foldl_size_no_wrap (stages : List Stage) :
    ∀ acc : Nat, acc + instanceSum stages < SIZE_MOD →
      stages.foldl (fun a s => (a + s.instance_data_size) % SIZE_MOD) acc
        = acc + instanceSum stages := by
  induction stages with
  | nil => intro acc _; simp [instanceSum]
  | cons s rest ih =>
    intro acc h
    rw [instanceSum_cons] at h
    have h1 : (acc + s.instance_data_size) % SIZE_MOD = acc + s.instance_data_size :=
      Nat.mod_eq_of_lt (by omega)
    rw [List.foldl_cons, h1, ih _ (by omega), instanceSum_cons]
    omega

theorem instanceSum_le_length_mul (stages : List Stage) (bound : Nat)
    (hsz : ∀ s ∈ stages, s.instance_data_size ≤ bound) :
    instanceSum stages ≤ stages.length * bound := by
  induction stages with
  | nil => simp [instanceSum]
  | cons s rest ih =>
    have h1 := hsz s (List.mem_cons_self _ _)
    have h2 := ih (fun t ht => hsz t (List.mem_cons_of_mem _ ht))
    rw [instanceSum_cons, List.length_cons, Nat.succ_mul]
    omega

/-- Lists the library can build never wrap the accumulator: with fewer than
`2 ^ 31` stages (the loop index is an `int`) of sizes below `2 ^ 32` (a size is
an `unsigned int` push-constant size) the sum is below `2 ^ 64`. -/
theorem instanceSum_fits (stages : List Stage) (hlen : stages.length < 2 ^ 31)
    (hsz : ∀ s ∈ stages, s.instance_data_size < 2 ^ 32) :
    instanceSum stages < SIZE_MOD := by
  have h := instanceSum_le_length_mul stages (2 ^ 32 - 1)
    (fun s hs => Nat.le_pred_of_lt (hsz s hs))
  have h2 : stages.length * (2 ^ 32 - 1) ≤ 2 ^ 31 * (2 ^ 32 - 1) :=
    Nat.mul_le_mul_right _ (Nat.le_of_lt hlen)
  have h3 : (2 : Nat) ^ 31 * (2 ^ 32 - 1) < SIZE_MOD := by decide
  omega

theorem foldl_free_freed (stages : List Stage) :
    ∀ h : Heap, (stages.foldl (fun h s => h.free s.user_data) h)
      = { h with freed := h.freed ++ stages.map Stage.user_data } := by
  induction stages with
  | nil => intro h; simp
  | cons s rest ih =>
    intro h
    rw [List.foldl_cons, ih]
    simp [Heap.free]

theorem owned_runOp (st : CommandList × Heap) (o : Op) (h : Owned st) :
    Owned (runOp st o) := by
  cases o with
  | record plan ds x y z =>
    unfold Owned at *
    simp only [runOp, stage_compute_record_extern, Heap.malloc, List.map_append,
      List.map_cons, List.map_nil, List.length_append, List.length_singleton]
    rw [List.range_succ, ← List.append_assoc]
    exact List.Perm.append_right _ h
  | reset =>
    unfold Owned at *
    simp only [runOp, command_list_reset_extern, foldl_free_freed, List.map_nil,
      List.append_nil]
    exact h

theorem owned_runOps (ops : List Op) :
    ∀ st : CommandList × Heap, Owned st → Owned (ops.foldl runOp st) := by
  induction ops with
  | nil => intro st h; exact h
  | cons o rest ih => intro st h; exact ih _ (owned_runOp st o h)

theorem blocks_runOps (ops : List Op) :
    ∀ st : CommandList × Heap,
      (ops.foldl runOp st).2.blocks.length = st.2.blocks.length + recordCount ops := by
  induction ops with
  | nil => intro st; simp [recordCount]
  | cons o rest ih =>
    intro st
    rw [List.foldl_cons, ih]
    cases o with
    | record plan ds x y z =>
      simp [runOp, stage_compute_record_extern, Heap.malloc, recordCount]
      omega
    | reset =>
      simp [runOp, command_list_reset_extern, foldl_free_freed, recordCount]

/-! ## Lemmas: the submit loops in closed form -/

theorem sizeMinusOne_pos (n : Nat) : sizeMinusOne (n + 1) = n := by
  simp [sizeMinusOne]

theorem submitStage_at (pre : List Stage) (s : Stage) (rest : List Stage) (device : Int)
    (st : SubmitState) :
    submitStage (pre ++ s :: rest) device st pre.length =
      { current_instance_data := st.current_instance_data + s.instance_data_size,
        trace := st.trace ++ (Event.record pre.length s st.current_instance_data device ::
          match rest with
          | [] => []
          | t :: _ => [Event.pipelineBarrier s.stage t.stage 0 [memory_barrier] 0 0]) } := by
  have hget : (pre ++ s :: rest)[pre.length]? = some s := by
    rw [List.getElem?_append_right (Nat.le_refl _)]; simp
  have hlen : (pre ++ s :: rest).length = (pre.length + rest.length) + 1 := by
    simp; omega
  unfold submitStage
  rw [hget, hlen, sizeMinusOne_pos]
  cases rest with
  | nil => simp
  | cons t rest2 =>
    have hnext : (pre ++ s :: t :: rest2)[pre.length + 1]? = some t := by
      rw [List.getElem?_append_right (Nat.le_succ _)]; simp
    simp [hnext]

theorem submit_inner_closed (device : Int) (suffix : List Stage) :
    ∀ (pre : List Stage) (st : SubmitState),
      (List.range' pre.length suffix.length).foldl (submitStage (pre ++ suffix) device) st =
        { current_instance_data := st.current_instance_data + instanceSum suffix,
          trace := st.trace ++ stageEvents device suffix pre.length st.current_instance_data } := by
  induction suffix with
  | nil => intro pre st; simp [instanceSum, stageEvents]
  | cons s rest ih =>
    intro pre st
    rw [List.length_cons, List.range'_succ, List.foldl_cons, submitStage_at]
    have hpre : pre ++ s :: rest = (pre ++ [s]) ++ rest := by simp
    have hlen : pre.length + 1 = (pre ++ [s]).length := by simp
    rw [hpre, hlen, ih (pre ++ [s]) _]
    cases rest with
    | nil => simp [stageEvents, instanceSum]
    | cons t rest2 =>
      simp [stageEvents, instanceSum_cons, Nat.add_assoc]

theorem submitInstance_closed (stages : List Stage) (device : Int) (st : SubmitState)
    (k : Nat) :
    submitInstance stages device st k =
      { current_instance_data := st.current_instance_data + instanceSum stages,
        trace := st.trace ++ stageEvents device stages 0 st.current_instance_data } := by
  have h := submit_inner_closed device stages [] st
  simpa [submitInstance, List.range_eq_range'] using h

theorem submit_outer_closed (stages : List Stage) (device : Int) (l : List Nat) :
    ∀ st : SubmitState,
      l.foldl (submitInstance stages device) st =
        { current_instance_data := st.current_instance_data + l.length * instanceSum stages,
          trace := st.trace ++ bodyEvents stages device l.length st.current_instance_data } := by
  induction l with
  | nil => intro st; simp [bodyEvents]
  | cons k rest ih =>
    intro st
    rw [List.foldl_cons, submitInstance_closed, ih]
    simp [bodyEvents, Nat.add_mul, Nat.add_assoc, Nat.add_comm]

theorem submit_closed (command_list : CommandList) (instance_buffer instance_count : Nat)
    (device : Int) (rest : List Int) (device_count : Int) (thread_counts : List Int) :
    command_list_submit_extern command_list instance_buffer instance_count (device :: rest)
        device_count thread_counts =
      some { current_instance_data :=
               instance_buffer + instance_count * instanceSum command_list.stages,
             trace := Event.begin device ::
               (bodyEvents command_list.stages device instance_count instance_buffer
                 ++ [Event.submit device]) } := by
  simp [ command_list_submit_extern, submit_outer_closed]

/-! ## Lemmas: record calls -/

theorem filter_isRecord_stageEvents (device : Int) (suffix : List Stage) :
    ∀ i p : Nat, (stageEvents device suffix i p).filter Event.isRecord
      = recordCalls device suffix i p := by
  induction suffix with
  | nil => intro i p; simp [stageEvents, recordCalls]
  | cons s rest ih =>
    intro i p
    cases rest with
    | nil => simp [stageEvents, recordCalls, Event.isRecord]
    | cons t rest2 =>
      have h := ih (i + 1) (p + s.instance_data_size)
      simp [stageEvents, recordCalls, Event.isRecord] at h ⊢
      simpa [recordCalls] using h

theorem filter_isRecord_bodyEvents (stages : List Stage) (device : Int) (m : Nat) :
    ∀ p : Nat, (bodyEvents stages device m p).filter Event.isRecord
      = bodyCalls stages device m p := by
  induction m with
  | zero => intro p; simp [bodyEvents, bodyCalls]
  | succ m ih =>
    intro p
    simp [bodyEvents, bodyCalls, filter_isRecord_stageEvents, ih]

theorem length_recordCalls (device : Int) (suffix : List Stage) :
    ∀ i p : Nat, (recordCalls device suffix i p).length = suffix.length := by
  induction suffix with
  | nil => intro i p; simp [recordCalls]
  | cons s rest ih => intro i p; simp [recordCalls, ih]

theorem getElem?_recordCalls (device : Int) (suffix : List Stage) :
    ∀ (i p j : Nat) (s : Stage), suffix[j]? = some s →
      (recordCalls device suffix i p)[j]?
        = some (Event.record (i + j) s (p + instanceSum (suffix.take j)) device) := by
  induction suffix with
  | nil => intro i p j s h; simp at h
  | cons a rest ih =>
    intro i p j s h
    cases j with
    | zero =>
      simp at h
      simp [recordCalls, instanceSum, h]
    | succ j =>
      simp at h
      have h2 := ih (i + 1) (p + a.instance_data_size) j s h
      simp [recordCalls, h2, instanceSum_cons]
      omega

theorem getElem?_bodyCalls (stages : List Stage) (device : Int) (m : Nat) :
    ∀ (p k i : Nat) (s : Stage), k < m → stages[i]? = some s →
      (bodyCalls stages device m p)[k * stages.length + i]?
        = some (Event.record i s
            (p + k * instanceSum stages + instanceSum (stages.take i)) device) := by
  induction m with
  | zero => intro p k i s hk; omega
  | succ m ih =>
    intro p k i s hk hs
    have hi : i < stages.length := by
      rcases List.getElem?_eq_some_iff.mp hs with ⟨h, _⟩
      exact h
    cases k with
    | zero =>
      have h1 : i < (recordCalls device stages 0 p).length := by
        rw [length_recordCalls]; exact hi
      simp only [bodyCalls, Nat.zero_mul, Nat.zero_add, Nat.add_zero]
      rw [List.getElem?_append_left h1, getElem?_recordCalls device stages 0 p i s hs]
      simp
    | succ k =>
      have h1 : (recordCalls device stages 0 p).length ≤ (k + 1) * stages.length + i := by
        rw [length_recordCalls, Nat.succ_mul]; omega
      simp only [bodyCalls]
      rw [List.getElem?_append_right h1, length_recordCalls]
      have h2 : (k + 1) * stages.length + i - stages.length = k * stages.length + i := by
        rw [Nat.succ_mul]; omega
      rw [h2, ih (p + instanceSum stages) k i s (by omega) hs]
      simp [Nat.succ_mul]
      omega

/-! ## Lemmas: order of the recorded events -/

theorem map_shape_stageEvents (device : Int) (suffix : List Stage) :
    ∀ i p : Nat, (stageEvents device suffix i p).map Event.shape
      = List.intersperse Shape.barrier
          ((suffix.enumFrom i).map (fun q => Shape.stage q.1 q.2)) := by
  induction suffix with
  | nil => intro i p; simp [stageEvents]
  | cons s rest ih =>
    intro i p
    cases rest with
    | nil => simp [stageEvents, Event.shape]
    | cons t rest2 =>
      have h := ih (i + 1) (p + s.instance_data_size)
      simp [stageEvents, Event.shape] at h ⊢
      exact h

theorem map_shape_bodyEvents (stages : List Stage) (device : Int) (m : Nat) :
    ∀ p : Nat, (bodyEvents stages device m p).map Event.shape
      = (List.replicate m (instanceShape stages)).flatten := by
  induction m with
  | zero => intro p; simp [bodyEvents]
  | succ m ih =>
    intro p
    simp [bodyEvents, ih, map_shape_stageEvents, instanceShape, List.replicate_succ,
      List.enum]

theorem barriers_stageEvents (device : Int) (suffix : List Stage) :
    ∀ i p : Nat, ((stageEvents device suffix i p).filter Event.isBarrier).length
      = suffix.length - 1 := by
  induction suffix with
  | nil => intro i p; simp [stageEvents]
  | cons s rest ih =>
    intro i p
    cases rest with
    | nil => simp [stageEvents, Event.isBarrier]
    | cons t rest2 =>
      have h := ih (i + 1) (p + s.instance_data_size)
      simp [stageEvents, Event.isBarrier] at h ⊢
      exact h

theorem barriers_bodyEvents (stages : List Stage) (device : Int) (m : Nat) :
    ∀ p : Nat, ((bodyEvents stages device m p).filter Event.isBarrier).length
      = m * (stages.length - 1) := by
  induction m with
  | zero => intro p; simp [bodyEvents]
  | succ m ih =>
    intro p
    simp [bodyEvents, ih, barriers_stageEvents, Nat.succ_mul, Nat.add_comm]

theorem stageEvents_nil (device : Int) (i p : Nat) : stageEvents device [] i p = [] := rfl

theorem bodyEvents_nil (device : Int) (m : Nat) :
    ∀ p : Nat, bodyEvents [] device m p = [] := by
  induction m with
  | zero => intro p; rfl
  | succ m ih => intro p; simp [bodyEvents, stageEvents_nil, ih]

/-! ## Lemmas: barriers -/

theorem barrierFollows_of_not_barrier (stages : List Stage) (device : Int)
    (prev e : Event) (h : e.isBarrier = false) : BarrierFollows stages device prev e := by
  intro src dst flags mbs bufs imgs he
  rw [he] at h
  simp [Event.isBarrier] at h

theorem head_stageEvents (device : Int) (suffix : List Stage) (i p : Nat) :
    ∀ y ∈ (stageEvents device suffix i p).head?, y.isBarrier = false := by
  intro y hy
  cases suffix with
  | nil => simp [stageEvents] at hy
  | cons s rest =>
    cases rest with
    | nil =>
      simp [stageEvents] at hy
      rw [← hy]; rfl
    | cons t rest2 =>
      simp [stageEvents] at hy
      rw [← hy]; rfl

theorem head_bodyEvents (stages : List Stage) (device : Int) (m : Nat) :
    ∀ (p : Nat), ∀ y ∈ (bodyEvents stages device m p).head?, y.isBarrier = false := by
  induction m with
  | zero => intro p y hy; simp [bodyEvents] at hy
  | succ m ih =>
    intro p y hy
    simp only [bodyEvents, List.head?_append, Option.mem_def, Option.or_eq_some] at hy
    rcases hy with hy | ⟨_, hy⟩
    · exact head_stageEvents device stages 0 p y hy
    · exact ih _ y hy

theorem chain_stageEvents (device : Int) (suffix : List Stage) :
    ∀ (pre : List Stage) (p : Nat),
      List.Chain' (BarrierFollows (pre ++ suffix) device)
        (stageEvents device suffix pre.length p) := by
  induction suffix with
  | nil => intro pre p; simp [stageEvents]
  | cons s rest ih =>
    intro pre p
    cases rest with
    | nil => simp [stageEvents]
    | cons t rest2 =>
      have hs : (pre ++ s :: t :: rest2)[pre.length]? = some s := by
        rw [List.getElem?_append_right (Nat.le_refl _)]; simp
      have ht : (pre ++ s :: t :: rest2)[pre.length + 1]? = some t := by
        rw [List.getElem?_append_right (Nat.le_succ _)]; simp
      have hrec := ih (pre ++ [s]) (p + s.instance_data_size)
      have hpre : (pre ++ [s]) ++ t :: rest2 = pre ++ s :: t :: rest2 := by simp
      have hlen : (pre ++ [s]).length = pre.length + 1 := by simp
      rw [hpre, hlen] at hrec
      simp only [stageEvents]
      refine List.chain'_cons.mpr ⟨?_, List.Chain'.cons' hrec ?_⟩
      · intro src dst flags mbs bufs imgs he
        injection he with h1 h2 h3 h4 h5 h6
        exact ⟨pre.length, s, t, p, rfl, hs, ht, h1.symm, h2.symm, by rw [← h4]; rfl,
          h5.symm, h6.symm⟩
      · intro y hy
        exact barrierFollows_of_not_barrier _ _ _ _
          (head_stageEvents device (t :: rest2) (pre.length + 1) _ y hy)

theorem chain_bodyEvents (stages : List Stage) (device : Int) (m : Nat) :
    ∀ p : Nat, List.Chain' (BarrierFollows stages device) (bodyEvents stages device m p) := by
  induction m with
  | zero => intro p; simp [bodyEvents]
  | succ m ih =>
    intro p
    simp only [bodyEvents]
    refine List.Chain'.append ?_ (ih _) ?_
    · simpa using chain_stageEvents device stages [] p
    · intro x _ y hy
      exact barrierFollows_of_not_barrier _ _ _ _ (head_bodyEvents stages device m _ y hy)

theorem chain_submit_trace (stages : List Stage) (device : Int) (m p : Nat) :
    List.Chain' (BarrierFollows stages device)
      (Event.begin device :: (bodyEvents stages device m p ++ [Event.submit device])) := by
  refine List.Chain'.cons' (List.Chain'.append (chain_bodyEvents stages device m p)
    (by simp) ?_) ?_
  · intro x _ y hy
    simp at hy
    rw [← hy]
    exact barrierFollows_of_not_barrier _ _ _ _ rfl
  · intro y hy
    simp only [List.head?_append, Option.mem_def, Option.or_eq_some] at hy
    rcases hy with hy | ⟨_, hy⟩
    · exact barrierFollows_of_not_barrier _ _ _ _ (head_bodyEvents stages device m p y hy)
    · simp at hy
      rw [← hy]
      exact barrierFollows_of_not_barrier _ _ _ _ rfl

theorem chain_getElem? {α : Type} {R : α → α → Prop} :
    ∀ {l : List α}, List.Chain' R l → ∀ (q : Nat) (a b : α),
      l[q]? = some a → l[q + 1]? = some b → R a b := by
  intro l
  induction l with
  | nil => intro _ q a b ha; simp at ha
  | cons x rest ih =>
    intro h q a b ha hb
    cases q with
    | zero =>
      cases rest with
      | nil => simp at hb
      | cons y rest2 =>
        simp at ha hb
        rw [← ha, ← hb]
        exact (List.chain'_cons.mp h).1
    | succ q =>
      simp at ha hb
      exact ih h.tail q a b ha hb

/-! ## Lemmas: counting frees -/

theorem count_range (n b : Nat) : (List.range n).count b = if b < n then 1 else 0 := by
  by_cases h : b < n
  · rw [if_pos h]
    exact List.count_eq_one_of_mem (List.nodup_range n) (List.mem_range.mpr h)
  · rw [if_neg h]
    exact List.count_eq_zero_of_not_mem (fun hm => h (List.mem_range.mp hm))

theorem owned_create (ctx : Context) : Owned ( command_list_create_extern ctx, Heap.empty) := by
  simp [Owned, command_list_create_extern, Heap.empty]

theorem destroy_freed (command_list : CommandList) (heap : Heap) :
    command_list_destroy_extern command_list heap
      = { heap with freed := heap.freed ++ command_list.stages.map Stage.user_data } := by
  simp [ command_list_destroy_extern, foldl_free_freed]

/-! ## Lemmas: plan construction -/

theorem planBindings_fail (create_info : ComputePlanCreateInfo) (i : Nat) (n : Nat) :
    ∀ (start : Nat) (st : List VkDescriptorSetLayoutBinding × ComputePlan),
      (∃ j kind, start ≤ j ∧ j < start + n ∧ create_info.descriptorTypes[j]? = some kind ∧
        kind ≠ DescriptorType.DESCRIPTOR_TYPE_STORAGE_BUFFER) →
      (List.range' start n).foldlM (planBinding create_info i) st
        = Except.error PlanFailure.returned_null := by
  induction n with
  | zero =>
    intro start st h
    obtain ⟨j, _, h1, h2, _⟩ := h
    omega
  | succ n ih =>
    intro start st h
    obtain ⟨j, kind, h1, h2, h3, h4⟩ := h
    rw [List.range'_succ, List.foldlM_cons]
    have hj : j < create_info.descriptorTypes.length := by
      rcases List.getElem?_eq_some_iff.mp h3 with ⟨h, _⟩
      exact h
    have hstart : start < create_info.descriptorTypes.length := by omega
    have hget := List.getElem?_eq_getElem hstart
    by_cases hk : create_info.descriptorTypes[start]
        = DescriptorType.DESCRIPTOR_TYPE_STORAGE_BUFFER
    · have hne : j ≠ start := by
        intro hjs
        subst hjs
        rw [hget, hk] at h3
        injection h3 with h3
        exact h4 h3.symm
      have hstep : planBinding create_info i st start = Except.ok
          (st.1 ++ [{ binding := start, descriptorType := VK_DESCRIPTOR_TYPE_STORAGE_BUFFER,
                      descriptorCount := 1, stageFlags := VK_SHADER_STAGE_COMPUTE_BIT }],
           { st.2 with poolSizes := st.2.poolSizes.set i (st.2.poolSizes.getD i [] ++
              [{ type := VK_DESCRIPTOR_TYPE_STORAGE_BUFFER, descriptorCount := 1 }]) }) := by
        simp [planBinding, hget, hk, pure, Except.pure]
      rw [hstep]
      exact ih (start + 1) _ ⟨j, kind, by omega, by omega, h3, h4⟩
    · have hstep : planBinding create_info i st start
          = Except.error PlanFailure.returned_null := by
        simp [planBinding, hget, hk, throw, throwThe, MonadExceptOf.throw]
      rw [hstep]
      rfl

theorem planDevice_fail (g : Glslang) (vk : Vulkan) (ctx : Context)
    (create_info : ComputePlanCreateInfo) (plan : ComputePlan) (i : Nat)
    (hbad : ∃ j kind, j < create_info.binding_count ∧
      create_info.descriptorTypes[j]? = some kind ∧
      kind ≠ DescriptorType.DESCRIPTOR_TYPE_STORAGE_BUFFER) :
    planDevice g vk ctx create_info plan i = Except.error PlanFailure.returned_null ∨
    (planDevice g vk ctx create_info plan i = Except.error PlanFailure.aborted ∧
      ∃ code, glsl_to_spirv_util g create_info.shader_source = some code ∧
        vk.vkCreateShaderModule (ctx.devices i) code = none) := by
  obtain ⟨j, kind, h1, h2, h3⟩ := hbad
  unfold planDevice
  cases hc : glsl_to_spirv_util g create_info.shader_source with
  | none => left; rfl
  | some code =>
    cases hm : vk.vkCreateShaderModule (ctx.devices i) code with
    | none =>
      right
      exact ⟨by simp [VK_CALL, hm, bind, Except.bind, throw, throwThe, MonadExceptOf.throw],
        code, rfl, hm⟩
    | some module =>
      left
      have hloop := planBindings_fail create_info i create_info.binding_count 0
        ([], { plan with modules := plan.modules.set i module })
        ⟨j, kind, Nat.zero_le _, by omega, h2, h3⟩
      rw [← List.range_eq_range'] at hloop
      simp [VK_CALL, hm, hloop, bind, Except.bind, pure, Except.pure]

/-! ## Lemmas: the device named by the events -/

theorem mem_stageEvents (device : Int) (suffix : List Stage) :
    ∀ (i p : Nat), ∀ e ∈ stageEvents device suffix i p,
      e.isStreamCall = false ∧ ∀ x ∈ e.deviceIndex?, x = device := by
  induction suffix with
  | nil => intro i p e he; simp [stageEvents] at he
  | cons s rest ih =>
    intro i p e he
    cases rest with
    | nil =>
      simp [stageEvents] at he
      subst he
      simp [Event.isStreamCall, Event.deviceIndex?]
    | cons t rest2 =>
      simp only [stageEvents, List.mem_cons] at he
      rcases he with he | he | he
      · subst he; simp [Event.isStreamCall, Event.deviceIndex?]
      · subst he; simp [Event.isStreamCall, Event.deviceIndex?]
      · exact ih _ _ e he

theorem mem_bodyEvents (stages : List Stage) (device : Int) (m : Nat) :
    ∀ (p : Nat), ∀ e ∈ bodyEvents stages device m p,
      e.isStreamCall = false ∧ ∀ x ∈ e.deviceIndex?, x = device := by
  induction m with
  | zero => intro p e he; simp [bodyEvents] at he
  | succ m ih =>
    intro p e he
    simp only [bodyEvents, List.mem_append] at he
    rcases he with he | he
    · exact mem_stageEvents device stages 0 p e he
    · exact ih _ e he

/-! ## Lemmas: slices of the instance buffer -/

theorem slices_filter_isRecord (trace : List Event) :
    slices (trace.filter Event.isRecord) = slices trace := by
  induction trace with
  | nil => rfl
  | cons e rest ih =>
    cases e <;> simp [slices, Event.isRecord, Event.slice?] at ih ⊢ <;> exact ih

theorem getElem?_slices (trace : List Event) :
    ∀ (j : Nat) (e : Event), (trace.filter Event.isRecord)[j]? = some e →
      (slices trace)[j]? = e.slice? := by
  induction trace with
  | nil => intro j e h; simp at h
  | cons e0 rest ih =>
    intro j e h
    cases e0 with
    | record i s p d =>
      cases j with
      | zero =>
        simp [Event.isRecord] at h
        simp [slices, Event.slice?, ← h]
      | succ j =>
        simp [Event.isRecord] at h
        have h2 := ih j e h
        simpa [slices, Event.slice?] using h2
    | begin x =>
      have h2 := ih j e (by simpa [Event.isRecord] using h)
      simpa [slices, Event.slice?] using h2
    | submit x =>
      have h2 := ih j e (by simpa [Event.isRecord] using h)
      simpa [slices, Event.slice?] using h2
    | pipelineBarrier a b c d f g =>
      have h2 := ih j e (by simpa [Event.isRecord] using h)
      simpa [slices, Event.slice?] using h2

theorem slices_recordCalls_cons (device : Int) (s : Stage) (rest : List Stage) (i p : Nat) :
    slices (recordCalls device (s :: rest) i p)
      = (p, s.instance_data_size)
          :: slices (recordCalls device rest (i + 1) (p + s.instance_data_size)) := by
  simp [slices, recordCalls, Event.slice?]

theorem slices_recordCalls_bounds (device : Int) (suffix : List Stage) :
    ∀ (i p : Nat), ∀ a ∈ slices (recordCalls device suffix i p),
      p ≤ a.1 ∧ a.1 + a.2 ≤ p + instanceSum suffix := by
  induction suffix with
  | nil => intro i p a ha; simp [slices, recordCalls] at ha
  | cons s rest ih =>
    intro i p a ha
    rw [slices_recordCalls_cons, List.mem_cons] at ha
    rw [instanceSum_cons]
    rcases ha with ha | ha
    · subst ha
      simp only []
      omega
    · have h := ih _ _ a ha
      omega

theorem slices_recordCalls_pairwise (device : Int) (suffix : List Stage) :
    ∀ (i p : Nat), (slices (recordCalls device suffix i p)).Pairwise
      (fun a b => a.1 + a.2 ≤ b.1) := by
  induction suffix with
  | nil => intro i p; simp [slices, recordCalls]
  | cons s rest ih =>
    intro i p
    rw [slices_recordCalls_cons, List.pairwise_cons]
    refine ⟨?_, ih _ _⟩
    intro b hb
    exact (slices_recordCalls_bounds device rest _ _ b hb).1

theorem slices_bodyEvents_succ (stages : List Stage) (device : Int) (m p : Nat) :
    slices (bodyEvents stages device (m + 1) p)
      = slices (recordCalls device stages 0 p)
          ++ slices (bodyEvents stages device m (p + instanceSum stages)) := by
  have h : slices (stageEvents device stages 0 p) = slices (recordCalls device stages 0 p) := by
    rw [← slices_filter_isRecord, filter_isRecord_stageEvents]
  simp only [bodyEvents]
  rw [← h]
  simp [slices]

theorem slices_bodyEvents_bounds (stages : List Stage) (device : Int) (m : Nat) :
    ∀ (p : Nat), ∀ a ∈ slices (bodyEvents stages device m p),
      p ≤ a.1 ∧ a.1 + a.2 ≤ p + m * instanceSum stages := by
  induction m with
  | zero => intro p a ha; simp [slices, bodyEvents] at ha
  | succ m ih =>
    intro p a ha
    rw [slices_bodyEvents_succ, List.mem_append] at ha
    rw [Nat.succ_mul]
    rcases ha with ha | ha
    · have h := slices_recordCalls_bounds device stages 0 p a ha
      omega
    · have h := ih _ a ha
      omega

theorem slices_bodyEvents_pairwise (stages : List Stage) (device : Int) (m : Nat) :
    ∀ (p : Nat), (slices (bodyEvents stages device m p)).Pairwise
      (fun a b => a.1 + a.2 ≤ b.1) := by
  induction m with
  | zero => intro p; simp [slices, bodyEvents]
  | succ m ih =>
    intro p
    rw [slices_bodyEvents_succ, List.pairwise_append]
    refine ⟨slices_recordCalls_pairwise device stages 0 p, ih _, ?_⟩
    intro a ha b hb
    have h1 := slices_recordCalls_bounds device stages 0 p a ha
    have h2 := slices_bodyEvents_bounds stages device m _ b hb
    omega

theorem slices_submit_trace (stages : List Stage) (device : Int) (m p : Nat) :
    slices (Event.begin device :: (bodyEvents stages device m p ++ [Event.submit device]))
      = slices (bodyEvents stages device m p) := by
  simp [slices, Event.slice?]

/-! ## Lemmas: the compute callback -/

theorem compute_lambda_recorded (heap : Heap) (memory : Nat → Nat) (stage : Stage)
    (info : ComputeRecordInfo) (instance_data : Nat) (device : Int) (pipeline layout : Nat)
    (hblock : heap.blocks[stage.user_data]? = some info)
    (hpipeline : vectorAt info.plan.pipelines device = some pipeline)
    (hlayout : vectorAt info.plan.pipelineLayouts device = some layout)
    (hset : ∀ ds, info.descriptor_set = some ds → (vectorAt ds.sets device).isSome = true) :
    compute_lambda heap memory stage instance_data device
      = some (computeCommands pipeline layout
          (info.descriptor_set.bind (fun ds => vectorAt ds.sets device))
          info.pc_size instance_data (readBytes memory instance_data info.pc_size)
          info.blocks_x info.blocks_y info.blocks_z) := by
  unfold compute_lambda computeCommands
  cases hds : info.descriptor_set with
  | none =>
    by_cases hpc : info.pc_size > 0
    · simp [hblock, hpipeline, hlayout, hds, hpc]
    · simp [hblock, hpipeline, hds, hpc]
  | some ds =>
    obtain ⟨handle, hhandle⟩ := Option.isSome_iff_exists.mp (hset ds hds)
    by_cases hpc : info.pc_size > 0
    · simp [hblock, hpipeline, hlayout, hds, hpc, hhandle]
    · simp [hblock, hpipeline, hlayout, hds, hpc, hhandle]

/-! ## Lemmas: one compute stage, many instances -/

theorem bodyEvents_single (s : Stage) (device : Int) (m : Nat) :
    ∀ b : Nat, bodyEvents [s] device m b
      = (List.range m).map
          (fun k => Event.record 0 s (b + k * s.instance_data_size) device) := by
  induction m with
  | zero => intro b; rfl
  | succ m ih =>
    intro b
    rw [List.range_succ_eq_map]
    simp only [bodyEvents, stageEvents, List.map_cons, List.map_map, List.singleton_append,
      Nat.zero_mul, Nat.add_zero]
    rw [ih]
    congr 1
    apply List.map_congr_left
    intro k _
    simp [instanceSum, Nat.succ_mul]
    omega

theorem recordedCommands_eq_flatten
    (others : Nat → Stage → Nat → Int → Option (List VkCmd)) (heap : Heap)
    (memory : Nat → Nat) (g : Event → List VkCmd) (trace : List Event)
    (h : ∀ e ∈ trace, eventCommands others heap memory e = some (g e)) :
    recordedCommands others heap memory trace = some ((trace.map g).flatten) := by
  induction trace with
  | nil => rfl
  | cons e rest ih =>
    have h1 := h e (List.mem_cons_self _ _)
    have h2 := ih (fun e2 he2 => h e2 (List.mem_cons_of_mem _ he2))
    simp [recordedCommands, h1, h2]

theorem readBytes_slice (memory : Nat → Nat) (base p m k : Nat) (hk : k < m) :
    ((readBytes memory base (m * p)).drop (k * p)).take p
      = readBytes memory (base + k * p) p := by
  have hle : k * p + p ≤ m * p := by
    have h : (k + 1) * p ≤ m * p := Nat.mul_le_mul_right p hk
    rw [Nat.succ_mul] at h
    exact h
  apply List.ext_getElem?
  intro j
  by_cases hj : j < p
  · have h1 : k * p + j < m * p := by omega
    simp [readBytes, List.getElem?_take, List.getElem?_drop, List.getElem?_range, hj, h1,
      Nat.add_assoc]
  · have h2 : (List.range p)[j]? = none :=
      List.getElem?_eq_none (by rw [List.length_range]; omega)
    simp [readBytes, List.getElem?_take, hj, h2]

theorem countP_flatten_map_one {α : Type} (f : α → List VkCmd) (l : List α)
    (h : ∀ a, (f a).countP VkCmd.isDispatch = 1) :
    ((l.map f).flatten).countP VkCmd.isDispatch = l.length := by
  induction l with
  | nil => rfl
  | cons a rest ih =>
    simp [List.countP_append, h a, ih]
    omega

theorem computeCommands_pos (pipeline layout : Nat) (set : Option Nat) (p q : Nat)
    (values : List Nat) (x y z : Nat) (hp : 0 < p) :
    computeCommands pipeline layout set p q values x y z
      = setupCommands pipeline layout set ++
          [VkCmd.vkCmdPushConstants layout VK_SHADER_STAGE_COMPUTE_BIT 0 p q values,
           VkCmd.vkCmdDispatch x y z] := by
  simp [computeCommands, setupCommands, hp]

theorem countP_setupCommands (pipeline layout : Nat) (set : Option Nat) :
    (setupCommands pipeline layout set).countP VkCmd.isDispatch = 0 := by
  cases set <;> simp [setupCommands, VkCmd.isDispatch]

theorem filter_isStreamCall_records (s : Stage) (device : Int) (q : Nat → Nat)
    (l : List Nat) :
    (l.map (fun k => Event.record 0 s (q k) device)).filter Event.isStreamCall = [] := by
  induction l with
  | nil => rfl
  | cons k rest _ => simp [Event.isStreamCall]

theorem single_stage_commands (others : Nat → Stage → Nat → Int → Option (List VkCmd))
    (heap : Heap) (memory : Nat → Nat) (s : Stage) (info : ComputeRecordInfo)
    (device : Int) (pipeline layout base m : Nat)
    (hrecord : s.record = RecordFn.compute_lambda)
    (hblock : heap.blocks[s.user_data]? = some info)
    (hpipeline : vectorAt info.plan.pipelines device = some pipeline)
    (hlayout : vectorAt info.plan.pipelineLayouts device = some layout)
    (hset : ∀ ds, info.descriptor_set = some ds → (vectorAt ds.sets device).isSome = true) :
    recordedCommands others heap memory
        (Event.begin device ::
          ((List.range m).map (fun k => Event.record 0 s (base + k * s.instance_data_size) device)
            ++ [Event.submit device]))
      = some (((List.range m).map (fun k =>
          computeCommands pipeline layout
            (info.descriptor_set.bind (fun ds => vectorAt ds.sets device))
            info.pc_size (base + k * s.instance_data_size)
            (readBytes memory (base + k * s.instance_data_size) info.pc_size)
            info.blocks_x info.blocks_y info.blocks_z)).flatten) := by
  have h := recordedCommands_eq_flatten others heap memory
    (fun e => match e with
      | Event.record _ _ q _ =>
        computeCommands pipeline layout
          (info.descriptor_set.bind (fun ds => vectorAt ds.sets device))
          info.pc_size q (readBytes memory q info.pc_size)
          info.blocks_x info.blocks_y info.blocks_z
      | _ => [])
    (Event.begin device ::
      ((List.range m).map (fun k => Event.record 0 s (base + k * s.instance_data_size) device)
        ++ [Event.submit device]))
    (by
      intro e he
      simp only [List.mem_cons, List.mem_append, List.mem_map, List.mem_singleton,
        List.not_mem_nil, or_false] at he
      rcases he with he | ⟨k, _, he⟩ | he
      · subst he; rfl
      · subst he
        simp only [eventCommands, callRecord, hrecord]
        exact compute_lambda_recorded heap memory s info _ device pipeline layout
          hblock hpipeline hlayout hset
      · subst he; rfl)
  rw [h]
  simp [List.map_map, Function.comp_def]

/-! ## Claims -/

/-- C1: for every command list whose aggregate size is representable in
`size_t`, `command_list_get_instance_size` returns exactly the sum of
`instance_data_size` over the stages currently in the list, and 0 for a list
with no stages. -/
theorem C1_get_instance_size_is_sum (command_list : CommandList)
    (hfit : instanceSum command_list.stages < SIZE_MOD) :
    command_list_get_instance_size_extern command_list = instanceSum command_list.stages ∧
    command_list_get_instance_size_extern { command_list with stages := [] } = 0 := by
  constructor
  · have h := foldl_size_no_wrap command_list.stages 0 (by simpa using hfit)
    simpa [ command_list_get_instance_size_extern] using h
  · rfl

/-- C1 at the stage list with sizes 4, 0 and 8: the size reported is 12. -/
theorem C1_get_instance_size_is_sum_witness :
    instanceSum exampleList.stages < SIZE_MOD ∧
    instanceSum exampleList.stages = 12 ∧
    command_list_get_instance_size_extern exampleList = instanceSum exampleList.stages ∧
    command_list_get_instance_size_extern { exampleList with stages := [] } = 0 :=
  ⟨by decide, by decide, C1_get_instance_size_is_sum exampleList (by decide)⟩

/-- C2: for every stage list, instance count `m`, instance index `k < m` and
stage index `i` below the number of stages, the `(k * n + i)`-th record call
made by `command_list_submit` (stage `i` of instance `k`) is the call of stage
`i`'s callback with data pointer
`instance_buffer + k * T + (s_0 + ... + s_(i-1))`, `T` being the sum of all
stage sizes. -/
theorem C2_record_data_pointer (command_list : CommandList)
    (instance_buffer instance_count : Nat) (device : Int) (rest : List Int)
    (device_count : Int) (thread_counts : List Int) (k i : Nat)
    (hk : k < instance_count) (hi : i < command_list.stages.length) :
    ∃ st s, command_list_submit_extern command_list instance_buffer instance_count
        (device :: rest) device_count thread_counts = some st ∧
      command_list.stages[i]? = some s ∧
      (st.trace.filter Event.isRecord)[k * command_list.stages.length + i]?
        = some (Event.record i s
            (instance_buffer + k * instanceSum command_list.stages
              + instanceSum (command_list.stages.take i)) device) := by
  have hs : command_list.stages[i]? = some (command_list.stages[i]) :=
    List.getElem?_eq_getElem hi
  refine ⟨_, command_list.stages[i], submit_closed _ _ _ _ _ _ _, hs, ?_⟩
  simp only [List.filter_cons, Event.isRecord, List.filter_append, List.filter_nil,
    List.append_nil, Bool.false_eq_true, if_false, filter_isRecord_bodyEvents]
  exact getElem?_bodyCalls command_list.stages device instance_count instance_buffer k i _ hk hs

/-- C2 at sizes 4, 0 and 8 with 3 instances: the call for stage 2 of instance 1
is the fifth record call and gets `instance_buffer + 1 * 12 + 4 + 0`. -/
theorem C2_record_data_pointer_witness :
    (1 < 3 ∧ 2 < exampleList.stages.length) ∧
    1000 + 1 * instanceSum exampleList.stages + instanceSum (exampleList.stages.take 2)
      = 1000 + 1 * 12 + 4 + 0 ∧
    ∃ st s, command_list_submit_extern exampleList 1000 3 [0] 1 [1] = some st ∧
      exampleList.stages[2]? = some s ∧
      (st.trace.filter Event.isRecord)[1 * exampleList.stages.length + 2]?
        = some (Event.record 2 s
            (1000 + 1 * instanceSum exampleList.stages
              + instanceSum (exampleList.stages.take 2)) 0) :=
  ⟨⟨by decide, by decide⟩, by decide,
    C2_record_data_pointer exampleList 1000 3 0 [] 1 [1] 1 2 (by decide) (by decide)⟩

/-- C3: for every stage list `[S_0..S_(n-1)]` and every instance count `m`,
what `command_list_submit` records between `begin` and `submit` is `m`
consecutive repetitions of record `S_0`, barrier, record `S_1`, barrier, ...,
record `S_(n-1)`: stages in list order within an instance, instances one after
the other, a barrier after every stage but the last (`m * (n - 1)` barriers),
and nothing at all for an empty list or `m = 0`. -/
theorem C3_recording_order (command_list : CommandList)
    (instance_buffer instance_count : Nat) (device : Int) (rest : List Int)
    (device_count : Int) (thread_counts : List Int) :
    ∃ st, command_list_submit_extern command_list instance_buffer instance_count
        (device :: rest) device_count thread_counts = some st ∧
      st.trace.map Event.shape
        = Shape.begin ::
            ((List.replicate instance_count (instanceShape command_list.stages)).flatten
              ++ [Shape.submit]) ∧
      (st.trace.filter Event.isBarrier).length
        = instance_count * (command_list.stages.length - 1) ∧
      (command_list.stages = [] ∨ instance_count = 0 →
        st.trace = [Event.begin device, Event.submit device]) := by
  refine ⟨_, submit_closed _ _ _ _ _ _ _, ?_, ?_, ?_⟩
  · simp [Event.shape, map_shape_bodyEvents]
  · simp [Event.isBarrier, barriers_bodyEvents]
  · intro h
    rcases h with h | h
    · simp [h, bodyEvents_nil]
    · simp [h, bodyEvents]

/-- C3 at three stages `[A, B, C]` and two instances: the recorded order is
A, barrier, B, barrier, C, A, barrier, B, barrier, C. -/
theorem C3_recording_order_example :
    ∃ st A B C, exampleStages = [A, B, C] ∧
      command_list_submit_extern exampleList 1000 2 [0] 1 [1] = some st ∧
      st.trace.map Event.shape =
        [Shape.begin,
          Shape.stage 0 A, Shape.barrier, Shape.stage 1 B, Shape.barrier, Shape.stage 2 C,
          Shape.stage 0 A, Shape.barrier, Shape.stage 1 B, Shape.barrier, Shape.stage 2 C,
          Shape.submit] := by
  obtain ⟨st, hrun, hshape, _, _⟩ := C3_recording_order exampleList 1000 2 0 [] 1 [1]
  exact ⟨st, _, _, _, rfl, hrun, by rw [hshape]; decide⟩

/-- C4: every barrier `command_list_submit` inserts stands right after the
record call of a stage `i` that is not the last; its source stage mask is stage
`i`'s declared flag, its destination stage mask is stage `i + 1`'s flag, it
carries exactly one memory barrier, from access `memory write` to access
`memory read`, and no buffer or image barriers. -/
theorem C4_barrier_contents (command_list : CommandList)
    (instance_buffer instance_count : Nat) (device : Int) (rest : List Int)
    (device_count : Int) (thread_counts : List Int) :
    ∃ st, command_list_submit_extern command_list instance_buffer instance_count
        (device :: rest) device_count thread_counts = some st ∧
      ∀ q src dst flags mbs bufs imgs,
        st.trace[q]? = some (Event.pipelineBarrier src dst flags mbs bufs imgs) →
        ∃ i s t p, 0 < q ∧ st.trace[q - 1]? = some (Event.record i s p device) ∧
          command_list.stages[i]? = some s ∧ command_list.stages[i + 1]? = some t ∧
          src = s.stage ∧ dst = t.stage ∧
          mbs = [{ srcAccessMask := VK_ACCESS_MEMORY_WRITE_BIT,
                   dstAccessMask := VK_ACCESS_MEMORY_READ_BIT }] ∧
          bufs = 0 ∧ imgs = 0 := by
  refine ⟨_, submit_closed _ _ _ _ _ _ _, ?_⟩
  intro q src dst flags mbs bufs imgs hq
  have hchain := chain_submit_trace command_list.stages device instance_count instance_buffer
  cases q with
  | zero => simp at hq
  | succ q =>
    have hlt : q < (Event.begin device ::
        (bodyEvents command_list.stages device instance_count instance_buffer
          ++ [Event.submit device])).length := by
      rcases List.getElem?_eq_some_iff.mp hq with ⟨h, _⟩
      exact Nat.lt_of_succ_lt h
    have hprev := List.getElem?_eq_getElem hlt
    obtain ⟨i, s, t, p, h1, h2, h3, h4, h5, h6, h7, h8⟩ :=
      chain_getElem? hchain q _ _ hprev hq src dst flags mbs bufs imgs rfl
    refine ⟨i, s, t, p, Nat.succ_pos _, ?_, h2, h3, h4, h5, h6, h7, h8⟩
    simp only [Nat.add_sub_cancel]
    rw [hprev, h1]

/-- C4 at a two-stage list with flags `0x800` and `0x1000`: the event at
position 2 is the barrier after stage 0, from `0x800` to `0x1000`, with the one
write-to-read memory barrier, and position 1 holds the record call of stage 0. -/
theorem C4_barrier_contents_example :
    ∃ st s p, command_list_submit_extern mixedList 1000 1 [0] 1 [1] = some st ∧
      st.trace[2]? = some (Event.pipelineBarrier 0x800 0x1000 0
        [{ srcAccessMask := 0x10000, dstAccessMask := 0x8000 }] 0 0) ∧
      st.trace[1]? = some (Event.record 0 s p 0) ∧ mixedList.stages[0]? = some s := by
  obtain ⟨st, hrun, hall⟩ := C4_barrier_contents mixedList 1000 1 0 [] 1 [1]
  have hst : some st = command_list_submit_extern mixedList 1000 1 [0] 1 [1] := hrun.symm
  have hbar : st.trace[2]? = some (Event.pipelineBarrier 0x800 0x1000 0
      [{ srcAccessMask := 0x10000, dstAccessMask := 0x8000 }] 0 0) := by
    have h2 : ( command_list_submit_extern mixedList 1000 1 [0] 1 [1]).bind
        (fun r => r.trace[2]?) = some (Event.pipelineBarrier 0x800 0x1000 0
          [{ srcAccessMask := 0x10000, dstAccessMask := 0x8000 }] 0 0) := by decide
    rw [← hst] at h2
    exact h2
  obtain ⟨i, s, t, p, _, hprev, hs, _, _, _, _, _, _⟩ := hall 2 _ _ _ _ _ _ hbar
  have hi : i = 0 := by
    have h1 : ( command_list_submit_extern mixedList 1000 1 [0] 1 [1]).bind
        (fun r => r.trace[1]?) = some (Event.record 0
          { record := RecordFn.compute_lambda, user_data := 0, instance_data_size := 4,
            stage := 0x800 } 1000 0) := by decide
    rw [← hst] at h1
    have h3 : st.trace[1]? = some (Event.record 0
          { record := RecordFn.compute_lambda, user_data := 0, instance_data_size := 4,
            stage := 0x800 } 1000 0) := h1
    simp only [Nat.add_one_sub_one] at hprev
    rw [h3] at hprev
    injection hprev with hprev
    injection hprev with hprev
    exact hprev.symm
  subst hi
  exact ⟨st, s, p, hrun, hbar, hprev, hs⟩

/-- C5: `command_list_reset` is idempotent. After a reset the stage sequence
is empty and the instance size is 0; a second reset right after the first calls
`free` on nothing and leaves the command list and the heap exactly as the first
reset left them. -/
theorem C5_reset_idempotent (command_list : CommandList) (heap : Heap) :
    ( command_list_reset_extern command_list heap).1.stages = [] ∧
    command_list_get_instance_size_extern ( command_list_reset_extern command_list heap).1 = 0 ∧
    ( command_list_reset_extern ( command_list_reset_extern command_list heap).1
        ( command_list_reset_extern command_list heap).2).2.freed
      = ( command_list_reset_extern command_list heap).2.freed ∧
    command_list_reset_extern ( command_list_reset_extern command_list heap).1
        ( command_list_reset_extern command_list heap).2
      = command_list_reset_extern command_list heap :=
  ⟨rfl, rfl, rfl, rfl⟩

/-- C6: starting from a freshly created command list, after any sequence of
`stage_compute_record` and `command_list_reset` operations followed by
`command_list_destroy`, every user-data block a record allocated (there is one
per record operation) has been freed exactly once and nothing else was freed;
and destroying any command list performs exactly one `free` per stage it
holds, on that stage's user data, `N` frees for `N` stages. -/
theorem C6_user_data_freed_once (ctx : Context) (ops : List Op)
    (command_list : CommandList) (heap : Heap) :
    (( command_list_destroy_extern
        (ops.foldl runOp ( command_list_create_extern ctx, Heap.empty)).1
        (ops.foldl runOp ( command_list_create_extern ctx, Heap.empty)).2).blocks.length
      = recordCount ops) ∧
    (∀ b : Nat,
      ( command_list_destroy_extern
        (ops.foldl runOp ( command_list_create_extern ctx, Heap.empty)).1
        (ops.foldl runOp ( command_list_create_extern ctx, Heap.empty)).2).freed.count b
      = if b < recordCount ops then 1 else 0) ∧
    ( command_list_destroy_extern command_list heap).freed
      = heap.freed ++ command_list.stages.map Stage.user_data ∧
    ( command_list_destroy_extern command_list heap).freed.length
      = heap.freed.length + command_list.stages.length := by
  have hown := owned_runOps ops _ (owned_create ctx)
  have hblocks := blocks_runOps ops ( command_list_create_extern ctx, Heap.empty)
  have hzero : ( command_list_create_extern ctx, Heap.empty).2.blocks.length = 0 := rfl
  rw [hzero, Nat.zero_add] at hblocks
  refine ⟨?_, ?_, ?_, ?_⟩
  · rw [destroy_freed]; exact hblocks
  · intro b
    rw [destroy_freed]
    unfold Owned at hown
    rw [hblocks] at hown
    simp only []
    rw [List.Perm.count_eq hown b, count_range]
  · rw [destroy_freed]
  · rw [destroy_freed]; simp

/-- C6 on a concrete run: record, record, reset, record, then destroy. Three
blocks were allocated; the frees are of blocks 0 and 1 (by the reset) and 2 (by
the destroy), each once. -/
theorem C6_user_data_freed_once_example :
    ( command_list_destroy_extern
        (exampleOps.foldl runOp ( command_list_create_extern exampleContext, Heap.empty)).1
        (exampleOps.foldl runOp ( command_list_create_extern exampleContext, Heap.empty)).2).freed
      = [0, 1, 2] ∧
    recordCount exampleOps = 3 ∧
    ∀ b : Nat,
      ( command_list_destroy_extern
        (exampleOps.foldl runOp ( command_list_create_extern exampleContext, Heap.empty)).1
        (exampleOps.foldl runOp ( command_list_create_extern exampleContext, Heap.empty)).2).freed.count b
      = if b < recordCount exampleOps then 1 else 0 :=
  ⟨by decide, by decide,
    (C6_user_data_freed_once exampleContext exampleOps exampleList Heap.empty).2.1⟩

/-- C7: `stage_compute_record(L, P, descriptor_set, x, y, z)` keeps the stages
already in `L` and appends exactly one stage, whose `instance_data_size` is
`P`'s push-constant size and whose pipeline-stage flag is the compute-shader
stage; it frees nothing and keeps the heap blocks of the earlier stages; and,
the new total being representable in `size_t`, `get_instance_size` afterwards
is its previous value plus `P`'s push-constant size. -/
theorem C7_record_appends_one_stage (command_list : CommandList) (heap : Heap)
    (plan : ComputePlan) (descriptor_set : Option DescriptorSet)
    (blocks_x blocks_y blocks_z : Nat)
    (hfit : command_list_get_instance_size_extern command_list + plan.pc_size < SIZE_MOD) :
    ∃ new info,
      ( stage_compute_record_extern command_list heap plan descriptor_set
          blocks_x blocks_y blocks_z).1.stages = command_list.stages ++ [new] ∧
      new.instance_data_size = plan.pc_size ∧
      new.stage = VK_PIPELINE_STAGE_COMPUTE_SHADER_BIT ∧
      ( stage_compute_record_extern command_list heap plan descriptor_set
          blocks_x blocks_y blocks_z).1.ctx = command_list.ctx ∧
      ( stage_compute_record_extern command_list heap plan descriptor_set
          blocks_x blocks_y blocks_z).2.blocks = heap.blocks ++ [info] ∧
      ( stage_compute_record_extern command_list heap plan descriptor_set
          blocks_x blocks_y blocks_z).2.freed = heap.freed ∧
      command_list_get_instance_size_extern
          ( stage_compute_record_extern command_list heap plan descriptor_set
            blocks_x blocks_y blocks_z).1
        = command_list_get_instance_size_extern command_list + plan.pc_size := by
  refine ⟨_, _, rfl, rfl, rfl, rfl, rfl, rfl, ?_⟩
  simp only [ stage_compute_record_extern, command_list_get_instance_size_extern,
    List.foldl_append, List.foldl_cons, List.foldl_nil]
  exact Nat.mod_eq_of_lt hfit

/-- C7 at the list with sizes 4, 0, 8 and a plan with push-constant size 4:
the size goes from 12 to 16. -/
theorem C7_record_appends_one_stage_witness :
    command_list_get_instance_size_extern exampleList + examplePlan.pc_size < SIZE_MOD ∧
    command_list_get_instance_size_extern exampleList = 12 ∧
    ∃ new info,
      ( stage_compute_record_extern exampleList Heap.empty examplePlan none 1 1 1).1.stages
        = exampleList.stages ++ [new] ∧
      new.instance_data_size = examplePlan.pc_size ∧
      new.stage = VK_PIPELINE_STAGE_COMPUTE_SHADER_BIT ∧
      ( stage_compute_record_extern exampleList Heap.empty examplePlan none 1 1 1).1.ctx
        = exampleList.ctx ∧
      ( stage_compute_record_extern exampleList Heap.empty examplePlan none 1 1 1).2.blocks
        = Heap.empty.blocks ++ [info] ∧
      ( stage_compute_record_extern exampleList Heap.empty examplePlan none 1 1 1).2.freed
        = Heap.empty.freed ∧
      command_list_get_instance_size_extern
          ( stage_compute_record_extern exampleList Heap.empty examplePlan none 1 1 1).1
        = command_list_get_instance_size_extern exampleList + examplePlan.pc_size :=
  ⟨by decide, by decide,
    C7_record_appends_one_stage exampleList Heap.empty examplePlan none 1 1 1 (by decide)⟩

/-- C8, as the claim states it, fails: for a context whose device count is 0
the device loop, which holds the validation, does not run, and a create-info
whose only binding is not a storage buffer yields a ComputePlan. -/
theorem C8_zero_devices_returns_plan :
    (∃ j kind, j < badCreateInfo.binding_count ∧
      badCreateInfo.descriptorTypes[j]? = some kind ∧
      kind ≠ DescriptorType.DESCRIPTOR_TYPE_STORAGE_BUFFER) ∧
    ∃ plan, stage_compute_plan_create_extern exampleGlslang exampleVulkan emptyContext
      badCreateInfo = Except.ok plan :=
  ⟨⟨0, DescriptorType.OTHER 2, by decide, rfl, by decide⟩, _, rfl⟩

/-- C8, amended: for every context with at least one device and every
create-info in which one of the first `binding_count` descriptor kinds is not
storage-buffer, `stage_compute_plan_create` never returns a ComputePlan. It
returns null, unless the creation of the shader module for device 0 fails, in
which case the `VK_CALL` check aborts before the bindings are looked at. -/
theorem C8_unsupported_binding_fails (g : Glslang) (vk : Vulkan) (ctx : Context)
    (create_info : ComputePlanCreateInfo)
    (hdev : 0 < ctx.deviceCount)
    (hbad : ∃ j kind, j < create_info.binding_count ∧
      create_info.descriptorTypes[j]? = some kind ∧
      kind ≠ DescriptorType.DESCRIPTOR_TYPE_STORAGE_BUFFER) :
    (∀ plan, stage_compute_plan_create_extern g vk ctx create_info ≠ Except.ok plan) ∧
    ( stage_compute_plan_create_extern g vk ctx create_info
        = Except.error PlanFailure.returned_null ∨
      ( stage_compute_plan_create_extern g vk ctx create_info
          = Except.error PlanFailure.aborted ∧
        ∃ code, glsl_to_spirv_util g create_info.shader_source = some code ∧
          vk.vkCreateShaderModule (ctx.devices 0) code = none)) := by
  obtain ⟨n, hn⟩ := Nat.exists_eq_succ_of_ne_zero (Nat.pos_iff_ne_zero.mp hdev)
  have hrun : ∀ plan0 : ComputePlan,
      (List.range ctx.deviceCount).foldlM (planDevice g vk ctx create_info) plan0
        = planDevice g vk ctx create_info plan0 0 ∨
      ∃ plan1, planDevice g vk ctx create_info plan0 0 = Except.ok plan1 := by
    intro plan0
    rw [hn, List.range_succ_eq_map, List.foldlM_cons]
    cases h : planDevice g vk ctx create_info plan0 0 with
    | error e => left; rfl
    | ok plan1 => right; exact ⟨plan1, rfl⟩
  have hall : ∀ plan0 : ComputePlan,
      (List.range ctx.deviceCount).foldlM (planDevice g vk ctx create_info) plan0
          = Except.error PlanFailure.returned_null ∨
        ((List.range ctx.deviceCount).foldlM (planDevice g vk ctx create_info) plan0
            = Except.error PlanFailure.aborted ∧
          ∃ code, glsl_to_spirv_util g create_info.shader_source = some code ∧
            vk.vkCreateShaderModule (ctx.devices 0) code = none) := by
    intro plan0
    rcases planDevice_fail g vk ctx create_info plan0 0 hbad with h | ⟨h, hcode⟩
    · rcases hrun plan0 with h2 | ⟨plan1, h2⟩
      · left; rw [h2]; exact h
      · rw [h] at h2; cases h2
    · rcases hrun plan0 with h2 | ⟨plan1, h2⟩
      · right; rw [h2]; exact ⟨h, hcode⟩
      · rw [h] at h2; cases h2
  unfold stage_compute_plan_create_extern
  refine ⟨?_, hall _⟩
  intro plan hplan
  rcases hall _ with h | ⟨h, _⟩
  · simp only [] at hplan
    rw [h] at hplan; cases hplan
  · simp only [] at hplan
    rw [h] at hplan; cases hplan

/-- C8 amended, at a context with one device and a create-info whose only
binding is not a storage buffer: the result is null. -/
theorem C8_unsupported_binding_fails_witness :
    (0 < exampleContext.deviceCount) ∧
    stage_compute_plan_create_extern exampleGlslang exampleVulkan exampleContext badCreateInfo
      = Except.error PlanFailure.returned_null ∧
    (∀ plan, stage_compute_plan_create_extern exampleGlslang exampleVulkan exampleContext
      badCreateInfo ≠ Except.ok plan) :=
  ⟨by decide, rfl,
    (C8_unsupported_binding_fails exampleGlslang exampleVulkan exampleContext badCreateInfo
      (by decide) ⟨0, DescriptorType.OTHER 2, by decide, rfl, by decide⟩).1⟩

/-- C9: `command_list_submit` reads only the first entry of the device list.
Its events are: one `begin` on the stream of `devices[0]`, first; then only
record calls and barriers, every record call getting `devices[0]` as its device
argument; then one `submit` on the same stream, last. A call that differs only
in `devices[1..]`, `device_count` or `submission_thread_counts` produces the
same events and the same final state. -/
theorem C9_only_first_device_is_used (command_list : CommandList)
    (instance_buffer instance_count : Nat) (device : Int) (rest rest2 : List Int)
    (device_count device_count2 : Int) (thread_counts thread_counts2 : List Int) :
    ∃ st body, command_list_submit_extern command_list instance_buffer instance_count
        (device :: rest) device_count thread_counts = some st ∧
      st.trace = Event.begin device :: (body ++ [Event.submit device]) ∧
      (∀ e ∈ body, e.isStreamCall = false) ∧
      (∀ i s p dev, Event.record i s p dev ∈ body → dev = device) ∧
      command_list_submit_extern command_list instance_buffer instance_count
        (device :: rest2) device_count2 thread_counts2 = some st := by
  refine ⟨_, bodyEvents command_list.stages device instance_count instance_buffer,
    submit_closed _ _ _ _ _ _ _, rfl, ?_, ?_, submit_closed _ _ _ _ _ _ _⟩
  · intro e he
    exact (mem_bodyEvents _ _ _ _ e he).1
  · intro i s p dev he
    exact (mem_bodyEvents _ _ _ _ _ he).2 dev rfl

/-- C9 on concrete inputs, four devices: device lists `[3, 1]` and `[3, 2, 0]`
with different counts give the same events, begun and submitted on stream 3. -/
theorem C9_only_first_device_is_used_example :
    ∃ st body, command_list_submit_extern mixedList 1000 1 [3, 1] 2 [1, 1] = some st ∧
      st.trace = Event.begin 3 :: (body ++ [Event.submit 3]) ∧
      command_list_submit_extern mixedList 1000 1 [3, 2, 0] 3 [5] = some st := by
  obtain ⟨st, body, h1, h2, _, _, h5⟩ :=
    C9_only_first_device_is_used mixedList 1000 1 3 [1] [2, 0] 2 3 [1, 1] [5]
  exact ⟨st, body, h1, h2, h5⟩

/-- C10, as the claim states it, fails: on a context with four devices and
with device list `[1]` the command buffer is begun and submitted on stream 1
and the record callback gets device index 1, not 0. -/
theorem C10_device_list_one_uses_stream_one :
    ∃ st s, command_list_submit_extern
        { ctx := wideContext, stages := [s] } 1000 1 [1] 1 [1] = some st ∧
      st.trace = [Event.begin 1, Event.record 0 s 1000 1, Event.submit 1] ∧
      st.trace.head? ≠ some (Event.begin 0) ∧
      st.trace.getLast? ≠ some (Event.submit 0) ∧
      Event.record 0 s 1000 0 ∉ st.trace :=
  ⟨_, { record := RecordFn.compute_lambda, user_data := 0, instance_data_size := 4,
        stage := VK_PIPELINE_STAGE_COMPUTE_SHADER_BIT },
    rfl, by decide, by decide, by decide, by decide⟩

/-- C10, amended: for every `command_list_submit` call, the stream on which the
command buffer is begun and submitted and the device index handed to every
record callback is `devices[0]`, the value of the first entry of the device
list. -/
theorem C10_submission_pins_to_first_entry (command_list : CommandList)
    (instance_buffer instance_count : Nat) (device : Int) (rest : List Int)
    (device_count : Int) (thread_counts : List Int) :
    ∃ st, command_list_submit_extern command_list instance_buffer instance_count
        (device :: rest) device_count thread_counts = some st ∧
      st.trace.head? = some (Event.begin device) ∧
      st.trace.getLast? = some (Event.submit device) ∧
      ∀ e ∈ st.trace, ∀ x ∈ e.deviceIndex?, x = device := by
  refine ⟨_, submit_closed _ _ _ _ _ _ _, rfl, ?_, ?_⟩
  · simp only []
    rw [← List.cons_append, List.getLast?_append]
    rfl
  · intro e he
    simp only [List.mem_cons, List.mem_append, List.mem_singleton, List.not_mem_nil,
      or_false] at he
    rcases he with he | he | he
    · subst he; intro x hx; simp [Event.deviceIndex?] at hx; exact hx.symm
    · exact (mem_bodyEvents _ _ _ _ e he).2
    · subst he; intro x hx; simp [Event.deviceIndex?] at hx; exact hx.symm

/-- C13: for every stage list with total instance size `T` and every instance
count `m`, every slice `command_list_submit` hands to a record callback lies
inside the `m * T` bytes that start at `instance_buffer`; the slice of stage
`i` of instance `k` starts at offset `k * T + (s_0 + ... + s_(i-1))` and ends at
or before `m * T`; each slice ends where or before every later slice starts,
so the slices of distinct (instance, stage) pairs do not overlap; and when
recording ends the running data pointer has advanced by exactly `m * T`. -/
theorem C13_slices_inside_buffer (command_list : CommandList)
    (instance_buffer instance_count : Nat) (device : Int) (rest : List Int)
    (device_count : Int) (thread_counts : List Int) :
    ∃ st, command_list_submit_extern command_list instance_buffer instance_count
        (device :: rest) device_count thread_counts = some st ∧
      st.current_instance_data
        = instance_buffer + instance_count * instanceSum command_list.stages ∧
      (∀ a ∈ slices st.trace, instance_buffer ≤ a.1 ∧
        a.1 + a.2 ≤ instance_buffer + instance_count * instanceSum command_list.stages) ∧
      (slices st.trace).Pairwise (fun a b => a.1 + a.2 ≤ b.1) ∧
      (∀ k i s, k < instance_count → command_list.stages[i]? = some s →
        (slices st.trace)[k * command_list.stages.length + i]?
            = some (instance_buffer + (k * instanceSum command_list.stages
                + instanceSum (command_list.stages.take i)), s.instance_data_size) ∧
          k * instanceSum command_list.stages + instanceSum (command_list.stages.take i)
              + s.instance_data_size
            ≤ instance_count * instanceSum command_list.stages) := by
  refine ⟨_, submit_closed _ _ _ _ _ _ _, rfl, ?_, ?_, ?_⟩
  · intro a ha
    simp only [slices_submit_trace] at ha
    exact slices_bodyEvents_bounds _ _ _ _ a ha
  · simp only [slices_submit_trace]
    exact slices_bodyEvents_pairwise _ _ _ _
  · intro k i s hk hs
    have hcall := getElem?_bodyCalls command_list.stages device instance_count
      instance_buffer k i s hk hs
    rw [← filter_isRecord_bodyEvents] at hcall
    have hslice := getElem?_slices _ _ _ hcall
    have hmem : (instance_buffer + k * instanceSum command_list.stages
        + instanceSum (command_list.stages.take i), s.instance_data_size)
        ∈ slices (bodyEvents command_list.stages device instance_count instance_buffer) :=
      List.getElem?_mem hslice
    have hb := slices_bodyEvents_bounds _ _ _ _ _ hmem
    simp only [slices_submit_trace]
    refine ⟨?_, ?_⟩
    · rw [hslice]
      simp [Event.slice?, Nat.add_assoc]
    · simp only [] at hb
      omega

/-- C13 at sizes 4, 0 and 8 with 3 instances and the buffer at address 1000:
the nine slices tile the 36 bytes in order and the pointer ends at 1036. -/
theorem C13_slices_inside_buffer_example :
    ∃ st, command_list_submit_extern exampleList 1000 3 [0] 1 [1] = some st ∧
      st.current_instance_data = 1036 ∧
      slices st.trace = [(1000, 4), (1004, 0), (1004, 8), (1012, 4), (1016, 0), (1016, 8),
        (1024, 4), (1028, 0), (1028, 8)] := by
  obtain ⟨st, hrun, hptr, _, _, _⟩ := C13_slices_inside_buffer exampleList 1000 3 0 [] 1 [1]
  have hst : some st = command_list_submit_extern exampleList 1000 3 [0] 1 [1] := hrun.symm
  refine ⟨st, hrun, ?_, ?_⟩
  · rw [hptr]; decide
  · have h : ( command_list_submit_extern exampleList 1000 3 [0] 1 [1]).map
        (fun r => slices r.trace) = some [(1000, 4), (1004, 0), (1004, 8), (1012, 4),
          (1016, 0), (1016, 8), (1024, 4), (1028, 0), (1028, 8)] := by decide
    rw [← hst] at h
    simpa using h

/-- C12: for the compute stage that `stage_compute_record(L, P, ds, x, y, z)`
appends, and a device index `d` for which `P` has a pipeline and a pipeline
layout and `ds`, if given, has a descriptor set, invoking the stage's record
callback with device `d` and instance-data pointer `q` records, in this order:
the bind of `P`'s compute pipeline for `d`; the bind of `ds`'s set for `d` at
set index 0, present exactly when `ds` is not null; the push-constant upload of
the `P.pc_size` bytes starting at `q`, at offset 0, present exactly when
`P.pc_size > 0`; and one dispatch with dimensions `(x, y, z)`. -/
theorem C12_compute_callback_commands (command_list : CommandList) (heap : Heap)
    (plan : ComputePlan) (descriptor_set : Option DescriptorSet)
    (blocks_x blocks_y blocks_z : Nat)
    (others : Nat → Stage → Nat → Int → Option (List VkCmd)) (memory : Nat → Nat)
    (device : Int) (instance_data pipeline layout : Nat)
    (hpipeline : vectorAt plan.pipelines device = some pipeline)
    (hlayout : vectorAt plan.pipelineLayouts device = some layout)
    (hset : ∀ ds, descriptor_set = some ds → (vectorAt ds.sets device).isSome = true) :
    ∃ new,
      ( stage_compute_record_extern command_list heap plan descriptor_set
          blocks_x blocks_y blocks_z).1.stages = command_list.stages ++ [new] ∧
      callRecord others
          ( stage_compute_record_extern command_list heap plan descriptor_set
            blocks_x blocks_y blocks_z).2 memory new instance_data device
        = some (computeCommands pipeline layout
            (descriptor_set.bind (fun ds => vectorAt ds.sets device))
            plan.pc_size instance_data (readBytes memory instance_data plan.pc_size)
            blocks_x blocks_y blocks_z) ∧
      (descriptor_set.bind (fun ds => vectorAt ds.sets device)).isSome
        = descriptor_set.isSome ∧
      (readBytes memory instance_data plan.pc_size).length = plan.pc_size := by
  refine ⟨_, rfl, ?_, ?_, by simp [readBytes]⟩
  · have hblock : ( stage_compute_record_extern command_list heap plan descriptor_set
        blocks_x blocks_y blocks_z).2.blocks[heap.blocks.length]?
        = some { plan := plan, descriptor_set := descriptor_set, blocks_x := blocks_x,
                 blocks_y := blocks_y, blocks_z := blocks_z, pc_size := plan.pc_size } := by
      simp [ stage_compute_record_extern, Heap.malloc]
    exact compute_lambda_recorded _ memory
      { record := RecordFn.compute_lambda, user_data := heap.blocks.length,
        instance_data_size := plan.pc_size, stage := VK_PIPELINE_STAGE_COMPUTE_SHADER_BIT }
      { plan := plan, descriptor_set := descriptor_set, blocks_x := blocks_x,
        blocks_y := blocks_y, blocks_z := blocks_z, pc_size := plan.pc_size }
      instance_data device pipeline layout hblock hpipeline hlayout hset
  · cases descriptor_set with
    | none => rfl
    | some ds =>
      obtain ⟨handle, hhandle⟩ := Option.isSome_iff_exists.mp (hset ds rfl)
      simp [hhandle]

/-- C12 at a plan with push-constant size 4, a descriptor set, dimensions
`(5, 6, 7)`, device 0 and data pointer 1004 into a buffer holding bytes
`1,0,0,0,2,0,0,0` from address 1000: bind pipeline 14, bind set 21 at index 0,
push the 4 bytes `2,0,0,0`, dispatch `(5, 6, 7)`. -/
theorem C12_compute_callback_commands_witness :
    (vectorAt examplePlan.pipelines 0 = some 14 ∧
      vectorAt examplePlan.pipelineLayouts 0 = some 13) ∧
    ∃ new,
      ( stage_compute_record_extern exampleList Heap.empty examplePlan
          (some exampleDescriptorSet) 5 6 7).1.stages = exampleList.stages ++ [new] ∧
      callRecord noOthers
          ( stage_compute_record_extern exampleList Heap.empty examplePlan
            (some exampleDescriptorSet) 5 6 7).2
          (memoryOf 1000 [1, 0, 0, 0, 2, 0, 0, 0]) new 1004 0
        = some [VkCmd.vkCmdBindPipeline 1 14,
            VkCmd.vkCmdBindDescriptorSets 1 13 0 1 [21] 0,
            VkCmd.vkCmdPushConstants 13 32 0 4 1004 [2, 0, 0, 0],
            VkCmd.vkCmdDispatch 5 6 7] := by
  obtain ⟨new, h1, h2, _, _⟩ := C12_compute_callback_commands exampleList Heap.empty
    examplePlan (some exampleDescriptorSet) 5 6 7 noOthers
    (memoryOf 1000 [1, 0, 0, 0, 2, 0, 0, 0]) 0 1004 14 13 rfl rfl
    (by intro ds hds; injection hds with hds; subst hds; rfl)
  refine ⟨⟨rfl, rfl⟩, new, h1, ?_⟩
  rw [h2]
  decide

/-- C11: for a command list holding exactly one compute stage, recorded from a
plan with push-constant size `p > 0`, every instance count `m` and an instance
buffer holding the `m * p` bytes `buffer`, `command_list_submit` begins one
command buffer, records into it exactly `m` dispatches, and submits it once;
for each `k < m` it records the binds, then the push-constant upload of exactly
the `p` bytes `buffer[k * p .. (k + 1) * p)`, then the `k`-th dispatch. The
device index is one for which the plan has a pipeline and a layout and the
descriptor set, if given, has a set. -/
theorem C11_single_stage_dispatches (ctx : Context) (heap : Heap)
    (plan : ComputePlan) (descriptor_set : Option DescriptorSet)
    (blocks_x blocks_y blocks_z : Nat)
    (others : Nat → Stage → Nat → Int → Option (List VkCmd)) (memory : Nat → Nat)
    (instance_buffer instance_count : Nat) (device : Int) (rest : List Int)
    (device_count : Int) (thread_counts : List Int)
    (buffer : List Nat) (pipeline layout : Nat)
    (hpc : 0 < plan.pc_size)
    (hbuffer : readBytes memory instance_buffer (instance_count * plan.pc_size) = buffer)
    (hpipeline : vectorAt plan.pipelines device = some pipeline)
    (hlayout : vectorAt plan.pipelineLayouts device = some layout)
    (hset : ∀ ds, descriptor_set = some ds → (vectorAt ds.sets device).isSome = true) :
    ∃ st cmds,
      command_list_submit_extern
          ( stage_compute_record_extern ( command_list_create_extern ctx) heap plan
            descriptor_set blocks_x blocks_y blocks_z).1
          instance_buffer instance_count (device :: rest) device_count thread_counts
        = some st ∧
      st.trace.filter Event.isStreamCall = [Event.begin device, Event.submit device] ∧
      recordedCommands others
          ( stage_compute_record_extern ( command_list_create_extern ctx) heap plan
            descriptor_set blocks_x blocks_y blocks_z).2 memory st.trace
        = some cmds ∧
      cmds = singleStageCommands pipeline layout
          (descriptor_set.bind (fun ds => vectorAt ds.sets device))
          plan.pc_size instance_buffer buffer blocks_x blocks_y blocks_z instance_count ∧
      cmds.countP VkCmd.isDispatch = instance_count ∧
      ∀ k, k < instance_count →
        ((buffer.drop (k * plan.pc_size)).take plan.pc_size).length = plan.pc_size := by
  have hstages : ( stage_compute_record_extern ( command_list_create_extern ctx) heap plan
      descriptor_set blocks_x blocks_y blocks_z).1.stages
      = [{ record := RecordFn.compute_lambda, user_data := heap.blocks.length,
           instance_data_size := plan.pc_size,
           stage := VK_PIPELINE_STAGE_COMPUTE_SHADER_BIT }] := rfl
  have hblock : ( stage_compute_record_extern ( command_list_create_extern ctx) heap plan
      descriptor_set blocks_x blocks_y blocks_z).2.blocks[heap.blocks.length]?
      = some { plan := plan, descriptor_set := descriptor_set, blocks_x := blocks_x,
               blocks_y := blocks_y, blocks_z := blocks_z, pc_size := plan.pc_size } := by
    simp [ stage_compute_record_extern, Heap.malloc]
  have hcmds := single_stage_commands others _ memory
    { record := RecordFn.compute_lambda, user_data := heap.blocks.length,
      instance_data_size := plan.pc_size, stage := VK_PIPELINE_STAGE_COMPUTE_SHADER_BIT }
    { plan := plan, descriptor_set := descriptor_set, blocks_x := blocks_x,
      blocks_y := blocks_y, blocks_z := blocks_z, pc_size := plan.pc_size }
    device pipeline layout instance_buffer instance_count rfl hblock hpipeline hlayout hset
  have hslice : ∀ k, k < instance_count →
      readBytes memory (instance_buffer + k * plan.pc_size) plan.pc_size
        = (buffer.drop (k * plan.pc_size)).take plan.pc_size := by
    intro k hk
    rw [← hbuffer, readBytes_slice memory instance_buffer plan.pc_size instance_count k hk]
  have hform : ((List.range instance_count).map (fun k =>
        computeCommands pipeline layout
          (descriptor_set.bind (fun ds => vectorAt ds.sets device))
          plan.pc_size (instance_buffer + k * plan.pc_size)
          (readBytes memory (instance_buffer + k * plan.pc_size) plan.pc_size)
          blocks_x blocks_y blocks_z)).flatten
      = singleStageCommands pipeline layout
          (descriptor_set.bind (fun ds => vectorAt ds.sets device))
          plan.pc_size instance_buffer buffer blocks_x blocks_y blocks_z instance_count := by
    unfold singleStageCommands
    congr 1
    apply List.map_congr_left
    intro k hk
    rw [computeCommands_pos _ _ _ _ _ _ _ _ _ hpc, hslice k (List.mem_range.mp hk)]
  refine ⟨_, _, submit_closed _ _ _ _ _ _ _, ?_, ?_, rfl, ?_, ?_⟩
  · simp only [hstages, bodyEvents_single]
    simp [Event.isStreamCall, filter_isStreamCall_records]
  · simp only [hstages, bodyEvents_single]
    rw [hcmds, hform]
  · unfold singleStageCommands
    rw [countP_flatten_map_one _ _ (by
      intro k
      simp [List.countP_append, countP_setupCommands, VkCmd.isDispatch])]
    simp
  · intro k hk
    rw [← hslice k hk]
    simp [readBytes]

/-- C11 on the end-to-end scenario: one device, a plan with push-constant size
4, one compute stage with a descriptor set and dimensions `(1, 1, 1)`, two
instances and the 8-byte buffer `1,0,0,0, 2,0,0,0` at address 1000. The
instance size is 4, and the one command buffer holds two dispatches, the first
after the upload of bytes `1,0,0,0` (push constant 1), the second after the
upload of bytes `2,0,0,0` (push constant 2). -/
theorem C11_single_stage_dispatches_witness :
    (0 < examplePlan.pc_size ∧
      readBytes (memoryOf 1000 [1, 0, 0, 0, 2, 0, 0, 0]) 1000 (2 * examplePlan.pc_size)
        = [1, 0, 0, 0, 2, 0, 0, 0] ∧
      vectorAt examplePlan.pipelines 0 = some 14 ∧
      vectorAt examplePlan.pipelineLayouts 0 = some 13) ∧
    command_list_get_instance_size_extern
      ( stage_compute_record_extern ( command_list_create_extern exampleContext) Heap.empty
        examplePlan (some exampleDescriptorSet) 1 1 1).1 = 4 ∧
    (littleEndian [1, 0, 0, 0] = 1 ∧ littleEndian [2, 0, 0, 0] = 2) ∧
    ∃ st,
      command_list_submit_extern
          ( stage_compute_record_extern ( command_list_create_extern exampleContext) Heap.empty
            examplePlan (some exampleDescriptorSet) 1 1 1).1
          1000 2 [0] 1 [1] = some st ∧
      st.trace.filter Event.isStreamCall = [Event.begin 0, Event.submit 0] ∧
      recordedCommands noOthers
          ( stage_compute_record_extern ( command_list_create_extern exampleContext) Heap.empty
            examplePlan (some exampleDescriptorSet) 1 1 1).2
          (memoryOf 1000 [1, 0, 0, 0, 2, 0, 0, 0]) st.trace
        = some [VkCmd.vkCmdBindPipeline 1 14,
            VkCmd.vkCmdBindDescriptorSets 1 13 0 1 [21] 0,
            VkCmd.vkCmdPushConstants 13 32 0 4 1000 [1, 0, 0, 0],
            VkCmd.vkCmdDispatch 1 1 1,
            VkCmd.vkCmdBindPipeline 1 14,
            VkCmd.vkCmdBindDescriptorSets 1 13 0 1 [21] 0,
            VkCmd.vkCmdPushConstants 13 32 0 4 1004 [2, 0, 0, 0],
            VkCmd.vkCmdDispatch 1 1 1] := by
  obtain ⟨st, cmds, h1, h2, h3, h4, _, _⟩ := C11_single_stage_dispatches exampleContext
    Heap.empty examplePlan (some exampleDescriptorSet) 1 1 1 noOthers
    (memoryOf 1000 [1, 0, 0, 0, 2, 0, 0, 0]) 1000 2 0 [] 1 [1] [1, 0, 0, 0, 2, 0, 0, 0] 14 13
    (by decide) (by decide) rfl rfl
    (by intro ds hds; injection hds with hds; subst hds; rfl)
  refine ⟨⟨by decide, by decide, rfl, rfl⟩, by decide, ⟨by decide, by decide⟩,
    st, h1, h2, ?_⟩
  rw [h3, h4]
  decide

end VkDispatch
